import Mathlib

/-!
XPT2046 touch-controller driver: embedding and verified properties

The definitions below are a shallow embedding of `src/XPT2046.h` and
`src/XPT2046.cpp`.  Machine integers are modelled as `Nat` / `Int` with explicit
reductions (`% 256`, `% 65536`, `toInt16`, `toInt32`) wherever the C++ code stores
into a fixed-width variable or computes in `int32_t`.  `int` (the type of promoted intermediate results) is taken
to be wide enough for every intermediate value of 16-bit operands.

The serial bus and the GPIO are external collaborators.  They are modelled by a
mock: a response stream (the byte returned by the n-th transfer) together with a
log of everything the driver did to the bus and to the pins.
-/

namespace XPT2046

/-! ## Data model -/

/-- Store of a value into an `int16_t` variable (two's complement wrap). -/
def toInt16 (n : Int) : Int := (n + 32768) % 65536 - 32768

/-- The Arduino macro `abs(x)`, which is `((x)>0?(x):-(x))`, on a promoted `int`. -/
def abs_int (x : Int) : Int := if x > 0 then x else -x

/-- Class `TS_Point`: a pair of `int16_t`. -/
structure TS_Point where
  x : Int
  y : Int
  deriving DecidableEq, Repr

/-- Enum `rotation_t`. -/
inductive rotation_t
  | ROT_0 | ROT_90 | ROT_180 | ROT_270
  deriving DecidableEq, Repr

/-- Enum `adc_ref_t`. -/
inductive adc_ref_t
  | MODE_SER | MODE_DFR
  deriving DecidableEq, Repr

def CAL_MARGIN : Nat := 20
def CTRL_LO_DFR : Nat := 0b0011
def CTRL_LO_SER : Nat := 0b0100
def CTRL_HI_X : Nat := (0b1001 <<< 4) % 256
def CTRL_HI_Y : Nat := (0b1101 <<< 4) % 256
def ADC_MAX : Nat := 0x0fff

/-- The data members of class `XPT2046`. -/
structure Driver where
  _width : Nat
  _height : Nat
  _rotation : rotation_t
  _cs_pin : Nat
  _irq_pin : Nat
  _is_swapped : Bool
  _cal_dx : Int
  _cal_dy : Int
  _cal_point_1 : TS_Point
  _cal_point_2 : TS_Point
  _cal_point_3 : TS_Point
  _cal_point_4 : TS_Point
  deriving DecidableEq, Repr

/-! ## Mock bus and pins -/

/-- What the driver does to its collaborators: a pin write or one byte sent. -/
inductive Event
  | digitalWrite (pin : Nat) (high : Bool)
  | transfer (byte : Nat)
  deriving DecidableEq, Repr

/-- Mock bus: `resp n` is the byte answered to the n-th transfer, `pos` counts the
transfers made so far and `log` records the pin writes and the bytes sent. -/
structure Bus where
  resp : Nat → Nat
  pos : Nat
  log : List Event

/-- Library call `digitalWrite(pin, level)`. -/
def digitalWrite (bus : Bus) (pin : Nat) (high : Bool) : Bus :=
  { bus with log := bus.log ++ [Event.digitalWrite pin high] }

/-- Library call `SPI.transfer(byte)`: sends one byte, returns the `uint8_t` received. -/
def transfer (bus : Bus) (byte : Nat) : Nat × Bus :=
  (bus.resp bus.pos % 256,
   { bus with pos := bus.pos + 1, log := bus.log ++ [Event.transfer (byte % 256)] })

/-- Library call `SPI.transfer16(word)`: two byte transfers, high byte first. -/
def transfer16 (bus : Bus) (word : Nat) : Nat × Bus :=
  let (hi, bus1) := transfer bus ((word % 65536) >>> 8)
  let (lo, bus2) := transfer bus1 (word % 256)
  ((hi <<< 8) ||| lo, bus2)

/-- Function `spi_begin`: opens the bus transaction (or does nothing when the SPI
library has no transactions); no byte is exchanged and no pin is written. -/
def spi_begin (bus : Bus) : Bus := bus

/-- Function `spi_end`: closes the bus transaction; no byte is exchanged. -/
def spi_end (bus : Bus) : Bus := bus

/-! ## Sampling loop -/

/-- The sample decoder of `_readLoop` (line 138): `(byte0 << 4) | (byte1 >> 4)`,
stored in the `uint16_t` variable `cur`. -/
def decode (byte0 byte1 : Nat) : Nat := ((byte0 <<< 4) ||| (byte1 >>> 4)) % 65536

/-- The body and condition of the `do ... while` loop of `_readLoop`, with the loop
variables `cur` and `i` as arguments.  `fuel` bounds the number of iterations. -/
def readLoopAux (ctrl max_samples : Nat) : Nat → Nat → Nat → Bus → Option (Nat × Bus)
  | 0, _, _, _ => none
  | fuel + 1, cur, i, bus =>
    let prev := cur
    let (b0, bus1) := transfer bus 0
    let cur0 := b0
    let (b1, bus2) := transfer bus1 ctrl
    -- 16 clocks -> 12-bits (zero-padded at end)
    let cur1 := decode cur0 b1
    if prev ≠ cur1 ∧ (i + 1) % 256 < max_samples then
      readLoopAux ctrl max_samples fuel cur1 ((i + 1) % 256) bus2
    else
      some (cur1, bus2)

/-- Method `XPT2046::_readLoop`.  The counter `i` is a `uint8_t`, so 256 iterations
of fuel cover every run of the loop. -/
def _readLoop (ctrl max_samples : Nat) (bus : Bus) : Option (Nat × Bus) :=
  readLoopAux ctrl max_samples 256 0xffff 0 bus

/-! ## Acquisition procedure -/

/-- Method `XPT2046::getRaw`.  `point` is the caller's output point; the result is
the point after the call together with the bus after the call. -/
def getRaw (d : Driver) (point : TS_Point) (mode : adc_ref_t) (max_samples : Nat)
    (bus : Bus) : Option (TS_Point × Bus) :=
  let ctrl_lo := if mode = adc_ref_t.MODE_DFR then CTRL_LO_DFR else CTRL_LO_SER
  let bus := digitalWrite bus d._cs_pin false
  let bus := spi_begin bus
  -- Send first control byte
  let bus := (transfer bus (CTRL_HI_X ||| ctrl_lo)).2
  match _readLoop (CTRL_HI_X ||| ctrl_lo) max_samples bus with
  | none => none
  | some (rx, bus) =>
    let point := { point with x := toInt16 rx }
    match _readLoop (CTRL_HI_Y ||| ctrl_lo) max_samples bus with
    | none => none
    | some (ry, bus) =>
      let point := { point with y := toInt16 ry }
      let bus :=
        if mode = adc_ref_t.MODE_DFR then
          let bus := (transfer bus 0).2
          (transfer bus (CTRL_HI_Y ||| CTRL_LO_SER)).2
        else bus
      -- Flush last read
      let bus := (transfer16 bus 0).2
      let bus := spi_end bus
      let bus := digitalWrite bus d._cs_pin true
      some (point, bus)

/-! ## Calibration -/

/-- Lines 101-126 of `XPT2046::setCalibration`: the averaging of opposite pairs,
entered once `_is_swapped` has been decided. -/
def setCalibration_average (d : Driver) : Driver :=
  if d._is_swapped then
    let average_x_1 := toInt16 ((d._cal_point_1.x + d._cal_point_2.x).tdiv 2)
    let average_x_2 := toInt16 ((d._cal_point_3.x + d._cal_point_4.x).tdiv 2)
    let d := { d with _cal_point_2 := { d._cal_point_2 with x := average_x_1 } }
    let d := { d with _cal_point_1 := { d._cal_point_1 with x := d._cal_point_2.x } }
    let d := { d with _cal_point_4 := { d._cal_point_4 with x := average_x_2 } }
    let d := { d with _cal_point_3 := { d._cal_point_3 with x := d._cal_point_4.x } }
    let average_y_1 := toInt16 ((d._cal_point_1.y + d._cal_point_3.y).tdiv 2)
    let average_y_2 := toInt16 ((d._cal_point_2.y + d._cal_point_4.y).tdiv 2)
    let d := { d with _cal_point_3 := { d._cal_point_3 with y := average_y_1 } }
    let d := { d with _cal_point_1 := { d._cal_point_1 with y := d._cal_point_3.y } }
    let d := { d with _cal_point_4 := { d._cal_point_4 with y := average_y_2 } }
    let d := { d with _cal_point_2 := { d._cal_point_2 with y := d._cal_point_4.y } }
    d
  else
    let average_x_1 := toInt16 ((d._cal_point_1.x + d._cal_point_3.x).tdiv 2)
    let average_x_2 := toInt16 ((d._cal_point_2.x + d._cal_point_4.x).tdiv 2)
    let d := { d with _cal_point_3 := { d._cal_point_3 with x := average_x_1 } }
    let d := { d with _cal_point_1 := { d._cal_point_1 with x := d._cal_point_3.x } }
    let d := { d with _cal_point_4 := { d._cal_point_4 with x := average_x_2 } }
    let d := { d with _cal_point_2 := { d._cal_point_2 with x := d._cal_point_4.x } }
    let average_y_1 := toInt16 ((d._cal_point_1.y + d._cal_point_2.y).tdiv 2)
    let average_y_2 := toInt16 ((d._cal_point_3.y + d._cal_point_4.y).tdiv 2)
    let d := { d with _cal_point_2 := { d._cal_point_2 with y := average_y_1 } }
    let d := { d with _cal_point_1 := { d._cal_point_1 with y := d._cal_point_2.y } }
    let d := { d with _cal_point_4 := { d._cal_point_4 with y := average_y_2 } }
    let d := { d with _cal_point_3 := { d._cal_point_3 with y := d._cal_point_4.y } }
    d

/-- Method `XPT2046::setCalibration`: the returned `bool` and the driver after the
call. -/
def setCalibration (d : Driver) (point1 point2 point3 point4 : TS_Point) : Bool × Driver :=
  let d := { d with _cal_point_1 := point1 }
  let d := { d with _cal_point_2 := point2 }
  let d := { d with _cal_point_3 := point3 }
  let d := { d with _cal_point_4 := point4 }
  let delta_x := toInt16 (point2.x - point1.x)
  let delta_y := toInt16 (point2.y - point1.y)
  if abs_int delta_x < abs_int delta_y then
    let delta_x := toInt16 (point3.x - point1.x)
    let delta_y := toInt16 (point3.y - point1.y)
    if abs_int delta_x > abs_int delta_y then
      (true, setCalibration_average { d with _is_swapped := true })
    else
      -- This can not be possible! Maybe wrong click?
      (false, d)
  else
    (true, setCalibration_average { d with _is_swapped := false })

/-! ## Lifecycle -/

/-- Result of an operation in 32-bit signed arithmetic (`int32_t`, two's complement
wrap). -/
def toInt32 (n : Int) : Int := (n + 2147483648) % 4294967296 - 2147483648

/-- Arduino constant `OUTPUT`. -/
def OUTPUT : Nat := 1

/-- Arduino constant `INPUT_PULLUP`. -/
def INPUT_PULLUP : Nat := 2

/-- Library call `pinMode(pin, mode)`: configures a pin; it is no pin write and no
byte is exchanged, so the log is left as it is. -/
def pinMode (bus : Bus) (_pin _mode : Nat) : Bus := bus

/-- Library call `SPI.begin()` (with `setBitOrder` and `setDataMode` where the
library has no transactions): bus configuration, no byte is exchanged. -/
def SPI_begin (bus : Bus) : Bus := bus

/-- Method `XPT2046::powerDown`. -/
def powerDown (d : Driver) (bus : Bus) : Bus :=
  let bus := digitalWrite bus d._cs_pin false
  -- Issue a throw-away read, with power-down enabled (PD{1,0} == 0b00)
  let bus := spi_begin bus
  let bus := (transfer bus (CTRL_HI_Y ||| CTRL_LO_SER)).2
  let bus := (transfer16 bus 0).2
  let bus := spi_end bus
  digitalWrite bus d._cs_pin true

/-- Method `XPT2046::begin`.  The arguments of the default calibration divide by
`width` and `height`; the call has no result when one of them is 0. -/
def begin (d : Driver) (width height : Nat) (bus : Bus) : Option (Driver × Bus) :=
  let bus := pinMode bus d._cs_pin OUTPUT
  let bus := pinMode bus d._irq_pin INPUT_PULLUP
  let d := { d with _width := width }
  let d := { d with _height := height }
  -- Delta x and delta y of the calibration points
  let d := { d with _cal_dx := toInt32 ((d._width : Int) - 2 * (CAL_MARGIN : Int)) }
  let d := { d with _cal_dy := toInt32 ((d._height : Int) - 2 * (CAL_MARGIN : Int)) }
  if width = 0 ∨ height = 0 then none
  else
    -- Default calibration (map 0..ADC_MAX -> 0..width|height)
    let d := (setCalibration d
      ⟨toInt16 ((CAL_MARGIN * ADC_MAX / width : Nat) : Int),
       toInt16 ((CAL_MARGIN * ADC_MAX / height : Nat) : Int)⟩
      ⟨toInt16 ((width : Int) - ((CAL_MARGIN * ADC_MAX / width : Nat) : Int)),
       toInt16 ((CAL_MARGIN * ADC_MAX / height : Nat) : Int)⟩
      ⟨toInt16 ((CAL_MARGIN * ADC_MAX / width : Nat) : Int),
       toInt16 ((height : Int) - ((CAL_MARGIN * ADC_MAX / height : Nat) : Int))⟩
      ⟨toInt16 ((width : Int) - ((CAL_MARGIN * ADC_MAX / width : Nat) : Int)),
       toInt16 ((height : Int) - ((CAL_MARGIN * ADC_MAX / height : Nat) : Int))⟩).2
    -- Start SPI
    let bus := SPI_begin bus
    -- Make sure PENIRQ is enabled
    let bus := powerDown d bus
    some (d, bus)

/-- Method `XPT2046::setRotation`. -/
def setRotation (d : Driver) (rotation : rotation_t) : Driver :=
  { d with _rotation := rotation }

/-- Method `XPT2046::getCalibrationPoints`: the four output points. -/
def getCalibrationPoints (d : Driver) : TS_Point × TS_Point × TS_Point × TS_Point :=
  (⟨toInt16 (CAL_MARGIN : Int), toInt16 (CAL_MARGIN : Int)⟩,
   ⟨toInt16 ((d._width : Int) - (CAL_MARGIN : Int)), toInt16 (CAL_MARGIN : Int)⟩,
   ⟨toInt16 (CAL_MARGIN : Int), toInt16 ((d._height : Int) - (CAL_MARGIN : Int))⟩,
   ⟨toInt16 ((d._width : Int) - (CAL_MARGIN : Int)),
    toInt16 ((d._height : Int) - (CAL_MARGIN : Int))⟩)

/-! ## Coordinate pipeline -/

/-- Function `swap`: the two variables after the call. -/
def swap (a b : Int) : Int × Int :=
  let tmp := a
  let a := b
  let b := tmp
  (a, b)

/-- Method `XPT2046::isTouching`; `pins` gives the level read on each pin
(`true` is HIGH), so `digitalRead(_irq_pin) == LOW` is `pins _irq_pin == false`. -/
def isTouching (d : Driver) (pins : Nat → Bool) : Bool :=
  pins d._irq_pin == false

/-- Lines 186-193 of `XPT2046::getPosition`: the linear map from the raw position.
The products, quotients and sums are `int32_t` operations, the stores are into
`int16_t`; a division by zero has no result. -/
def getPosition_map (d : Driver) (rawPosition : TS_Point) : Option TS_Point :=
  if d._is_swapped then
    if d._cal_point_2.y - d._cal_point_1.y = 0 ∨ d._cal_point_3.x - d._cal_point_1.x = 0 then
      none
    else
      some
        ⟨toInt16 (toInt32 ((CAL_MARGIN : Int) +
            toInt32 ((toInt32 (d._cal_dx * (rawPosition.y - d._cal_point_1.y))).tdiv
              (d._cal_point_2.y - d._cal_point_1.y)))),
         toInt16 (toInt32 ((CAL_MARGIN : Int) +
            toInt32 ((toInt32 (d._cal_dy * (rawPosition.x - d._cal_point_1.x))).tdiv
              (d._cal_point_3.x - d._cal_point_1.x))))⟩
  else
    if d._cal_point_2.x - d._cal_point_1.x = 0 ∨ d._cal_point_3.y - d._cal_point_1.y = 0 then
      none
    else
      some
        ⟨toInt16 (toInt32 ((CAL_MARGIN : Int) +
            toInt32 ((toInt32 (d._cal_dx * (rawPosition.x - d._cal_point_1.x))).tdiv
              (d._cal_point_2.x - d._cal_point_1.x)))),
         toInt16 (toInt32 ((CAL_MARGIN : Int) +
            toInt32 ((toInt32 (d._cal_dy * (rawPosition.y - d._cal_point_1.y))).tdiv
              (d._cal_point_3.y - d._cal_point_1.y))))⟩

/-- Lines 195-213 of `XPT2046::getPosition`: the transform for the current rotation. -/
def getPosition_rotate (d : Driver) (position : TS_Point) : TS_Point :=
  match d._rotation with
  | rotation_t.ROT_90 =>
    let position := { position with x := toInt16 ((d._width : Int) - position.x) }
    let (x, y) := swap position.x position.y
    ⟨x, y⟩
  | rotation_t.ROT_180 =>
    let position := { position with x := toInt16 ((d._width : Int) - position.x) }
    let position := { position with y := toInt16 ((d._height : Int) - position.y) }
    position
  | rotation_t.ROT_270 =>
    let position := { position with y := toInt16 ((d._height : Int) - position.y) }
    let (x, y) := swap position.x position.y
    ⟨x, y⟩
  | rotation_t.ROT_0 =>
    -- Do nothing
    position

/-- Method `XPT2046::getPosition`.  `position` is the caller's output point; the
result is the point after the call together with the bus after the call. -/
def getPosition (d : Driver) (position : TS_Point) (mode : adc_ref_t) (max_samples : Nat)
    (pins : Nat → Bool) (bus : Bus) : Option (TS_Point × Bus) :=
  if !isTouching d pins then
    let position := { position with y := toInt16 0xffff }
    let position := { position with x := position.y }
    some (position, bus)
  else
    -- First get raw position
    let rawPosition : TS_Point := ⟨0, 0⟩
    match getRaw d rawPosition mode max_samples bus with
    | none => none
    | some (rawPosition, bus) =>
      -- Calculate x and y
      match getPosition_map d rawPosition with
      | none => none
      | some position =>
        -- Transform based on current rotation setting
        some (getPosition_rotate d position, bus)

/-! ## Vocabulary of the statements -/

/-- The `j`-th sample (from 0) that the mock bus will deliver, counted from the
current position: decoded from response bytes `2j` and `2j+1` ahead. -/
def sampleAt (bus : Bus) (j : Nat) : Nat :=
  decode (bus.resp (bus.pos + 2 * j) % 256) (bus.resp (bus.pos + 2 * j + 1) % 256)

/-- The bus trace of `m` conversions on control byte `ctrl`: `m` pairs `(0x00, ctrl)`. -/
def conversions (m ctrl : Nat) : List Event :=
  (List.replicate m [Event.transfer 0, Event.transfer ctrl]).flatten

/-- The bus after `m` conversions on control byte `ctrl`. -/
def afterConversions (bus : Bus) (m ctrl : Nat) : Bus :=
  { bus with pos := bus.pos + 2 * m, log := bus.log ++ conversions m ctrl }

/-- The bus inside `getRaw` when the first sampling loop starts: chip-select has been
driven low and the first control byte has been sent (lines 150-155). -/
def getRaw_primed (d : Driver) (mode : adc_ref_t) (bus : Bus) : Bus :=
  (transfer (spi_begin (digitalWrite bus d._cs_pin false))
    (CTRL_HI_X ||| (if mode = adc_ref_t.MODE_DFR then CTRL_LO_DFR else CTRL_LO_SER))).2

/-- A point whose coordinates are raw ADC readings, 0..4095. -/
def InRaw (p : TS_Point) : Prop := 0 ≤ p.x ∧ p.x ≤ 4095 ∧ 0 ≤ p.y ∧ p.y ≤ 4095

instance (p : TS_Point) : Decidable (InRaw p) := by unfold InRaw; infer_instance

/-- A driver on pins CS=10, IRQ=2 for a 240x320 screen before any calibration: the
constructor clears `_is_swapped` and the four points are default `TS_Point`s. -/
def driver0 : Driver :=
  { _width := 240, _height := 320, _rotation := rotation_t.ROT_0, _cs_pin := 10, _irq_pin := 2,
    _is_swapped := false, _cal_dx := 200, _cal_dy := 280,
    _cal_point_1 := ⟨0, 0⟩, _cal_point_2 := ⟨0, 0⟩, _cal_point_3 := ⟨0, 0⟩, _cal_point_4 := ⟨0, 0⟩ }

/-- A mock bus at rest whose `n`-th response byte is `resp n`. -/
def mockBus (resp : Nat → Nat) : Bus := { resp := resp, pos := 0, log := [] }

/-- The control bytes (bytes with the start bit 7 set) among the bytes sent in a log,
in the order sent. -/
def controlBytes (log : List Event) : List Nat :=
  log.filterMap fun e =>
    match e with
    | Event.transfer b => if b &&& 0x80 ≠ 0 then some b else none
    | Event.digitalWrite _ _ => none

/-- The last control byte sent in a log. -/
def lastControlByte (log : List Event) : Option Nat := (controlBytes log).getLast?

/-- A point whose coordinates fit the `int16_t` fields of `TS_Point`. -/
def InInt16 (p : TS_Point) : Prop :=
  -32768 ≤ p.x ∧ p.x ≤ 32767 ∧ -32768 ≤ p.y ∧ p.y ≤ 32767

instance (p : TS_Point) : Decidable (InInt16 p) := by unfold InInt16; infer_instance

/-- The driver `driver0` after `begin(width, height)` on a silent bus. -/
def begun (width height : Nat) : Driver :=
  match begin driver0 width height (mockBus (fun _ => 0)) with
  | some (d, _) => d
  | none => driver0

/-- A mock bus on which both the X and the Y channel converge at once: the X channel
answers the 12-bit value `rx` twice, then the Y channel answers `ry` twice. -/
def readingBus (rx ry : Nat) : Bus :=
  mockBus (fun n =>
    [0, rx >>> 4, (rx &&& 0xF) <<< 4, rx >>> 4, (rx &&& 0xF) <<< 4,
        ry >>> 4, (ry &&& 0xF) <<< 4, ry >>> 4, (ry &&& 0xF) <<< 4].getD n 0)

/-- Pin levels with the IRQ pin 2 low (touch present) and every other pin high. -/
def touchPins : Nat → Bool := fun pin => pin != 2

/-- Pin levels with every pin high (no touch). -/
def idlePins : Nat → Bool := fun _ => true

/-! ## Lemmas on the codec and the sampling loop -/

theorem decode_eq (byte0 byte1 : Nat) (h0 : byte0 < 256) (h1 : byte1 < 256) :
    decode byte0 byte1 = byte0 * 16 + byte1 / 16 := by
  have hlt : byte1 / 16 < 2 ^ 4 := by omega
  have hor : 2 ^ 4 * byte0 ||| byte1 / 16 = 2 ^ 4 * byte0 + byte1 / 16 :=
    (Nat.mul_add_lt_is_or hlt byte0).symm
  have hl : byte0 <<< 4 = 2 ^ 4 * byte0 := by rw [Nat.shiftLeft_eq, Nat.mul_comm]
  have hr : byte1 >>> 4 = byte1 / 16 := by rw [Nat.shiftRight_eq_div_pow]
  unfold decode
  rw [hl, hr, hor]
  omega

theorem sampleAt_lt (bus : Bus) (j : Nat) : sampleAt bus j < 4096 := by
  unfold sampleAt
  rw [decode_eq _ _ (Nat.mod_lt _ (by decide)) (Nat.mod_lt _ (by decide))]
  omega

theorem sampleAt_afterConversions (bus : Bus) (m ctrl j : Nat) :
    sampleAt (afterConversions bus m ctrl) j = sampleAt bus (m + j) := by
  simp only [sampleAt, afterConversions]
  have e : bus.pos + 2 * m + 2 * j = bus.pos + 2 * (m + j) := by omega
  rw [e]

theorem conversions_add (a b ctrl : Nat) :
    conversions (a + b) ctrl = conversions a ctrl ++ conversions b ctrl := by
  unfold conversions
  rw [List.replicate_add, List.flatten_append]

theorem afterConversions_add (bus : Bus) (a b ctrl : Nat) :
    afterConversions (afterConversions bus a ctrl) b ctrl = afterConversions bus (a + b) ctrl := by
  simp only [afterConversions, conversions_add, List.append_assoc, Bus.mk.injEq, and_true, true_and]
  omega

theorem readLoopAux_succ (ctrl N fuel cur i : Nat) (bus : Bus) :
    readLoopAux ctrl N (fuel + 1) cur i bus =
      if cur ≠ sampleAt bus 0 ∧ (i + 1) % 256 < N then
        readLoopAux ctrl N fuel (sampleAt bus 0) ((i + 1) % 256)
          (afterConversions bus 1 (ctrl % 256))
      else some (sampleAt bus 0, afterConversions bus 1 (ctrl % 256)) := by
  have hc : conversions 1 (ctrl % 256) = [Event.transfer 0, Event.transfer (ctrl % 256)] := rfl
  rw [readLoopAux]
  simp only [transfer, sampleAt, afterConversions, hc, Nat.mul_zero, Nat.add_zero, Nat.zero_mod,
    List.append_assoc, List.cons_append, List.nil_append, Nat.mul_one]

/-- Exact run of the loop: if the loop condition holds at the first `n` tests and
fails at the next one, the loop makes `n + 1` conversions and returns the last sample. -/
theorem readLoopAux_run (ctrl N : Nat) :
    ∀ (n fuel prev i : Nat) (bus : Bus), n < fuel → i + n + 1 < 256 →
      (∀ t, t < n → i + t + 1 < N) →
      (0 < n → prev ≠ sampleAt bus 0) →
      (∀ t, t + 1 < n → sampleAt bus t ≠ sampleAt bus (t + 1)) →
      ((n = 0 ∧ prev = sampleAt bus 0) ∨ (0 < n ∧ sampleAt bus (n - 1) = sampleAt bus n)
        ∨ ¬ (i + n + 1 < N)) →
      readLoopAux ctrl N fuel prev i bus
        = some (sampleAt bus n, afterConversions bus (n + 1) (ctrl % 256)) := by
  intro n
  induction n with
  | zero =>
    intro fuel prev i bus hf hi _ _ _ hstop
    obtain ⟨f, rfl⟩ : ∃ f, fuel = f + 1 := ⟨fuel - 1, by omega⟩
    have hmod : (i + 1) % 256 = i + 1 := Nat.mod_eq_of_lt (by omega)
    have hc : ¬ (prev ≠ sampleAt bus 0 ∧ (i + 1) % 256 < N) := by
      rw [hmod]
      rintro ⟨h1, h2⟩
      rcases hstop with ⟨_, h⟩ | ⟨h, _⟩ | h
      · exact h1 h
      · omega
      · exact h (by omega)
    rw [readLoopAux_succ, if_neg hc]
  | succ n ih =>
    intro fuel prev i bus hf hi hcnt hprev hne hstop
    obtain ⟨f, rfl⟩ : ∃ f, fuel = f + 1 := ⟨fuel - 1, by omega⟩
    have hmod : (i + 1) % 256 = i + 1 := Nat.mod_eq_of_lt (by omega)
    have hc : prev ≠ sampleAt bus 0 ∧ (i + 1) % 256 < N := by
      rw [hmod]
      exact ⟨hprev (Nat.succ_pos n), by have := hcnt 0 (Nat.succ_pos n); omega⟩
    rw [readLoopAux_succ, if_pos hc, hmod]
    have key := ih f (sampleAt bus 0) (i + 1) (afterConversions bus 1 (ctrl % 256))
      (by omega) (by omega)
      (fun t ht => by have := hcnt (t + 1) (by omega); omega)
      (fun hn => by
        rw [sampleAt_afterConversions]
        exact hne 0 (by omega))
      (fun t ht => by
        rw [sampleAt_afterConversions, sampleAt_afterConversions]
        have := hne (1 + t) (by omega)
        rwa [Nat.add_assoc] at this)
      (by
        rcases hstop with ⟨h, _⟩ | ⟨_, h⟩ | h
        · omega
        · rcases Nat.eq_zero_or_pos n with h0 | h0
          · subst h0
            left
            refine ⟨rfl, ?_⟩
            rw [sampleAt_afterConversions]
            exact h
          · right; left
            refine ⟨h0, ?_⟩
            rw [sampleAt_afterConversions, sampleAt_afterConversions]
            have e1 : 1 + (n - 1) = n + 1 - 1 := by omega
            have e2 : 1 + n = n + 1 := by omega
            rw [e1, e2]
            exact h
        · right; right
          intro h2
          exact h (by omega))
    rw [key, sampleAt_afterConversions, afterConversions_add]
    have e2 : 1 + n = n + 1 := by omega
    have e3 : 1 + (n + 1) = n + 1 + 1 := by omega
    rw [e2, e3]

/-- The loop always returns: with enough fuel it makes between one and `d + 1`
conversions, at least two when the first test of the loop condition succeeds. -/
theorem readLoopAux_total (ctrl N : Nat) (hN : N ≤ 255) :
    ∀ (d fuel prev i : Nat) (bus : Bus), N - (i + 1) ≤ d → d < fuel → i < 255 →
      ∃ m, 1 ≤ m ∧ m ≤ d + 1 ∧ (prev ≠ sampleAt bus 0 → i + 1 < N → 2 ≤ m) ∧
        readLoopAux ctrl N fuel prev i bus
          = some (sampleAt bus (m - 1), afterConversions bus m (ctrl % 256)) := by
  intro d
  induction d with
  | zero =>
    intro fuel prev i bus hd hf hi
    obtain ⟨f, rfl⟩ : ∃ f, fuel = f + 1 := ⟨fuel - 1, by omega⟩
    have hmod : (i + 1) % 256 = i + 1 := Nat.mod_eq_of_lt (by omega)
    have hc : ¬ (prev ≠ sampleAt bus 0 ∧ (i + 1) % 256 < N) := by
      rw [hmod]; rintro ⟨_, h2⟩; omega
    refine ⟨1, le_refl 1, by omega, fun _ h => by omega, ?_⟩
    rw [readLoopAux_succ, if_neg hc]
  | succ d ih =>
    intro fuel prev i bus hd hf hi
    obtain ⟨f, rfl⟩ : ∃ f, fuel = f + 1 := ⟨fuel - 1, by omega⟩
    have hmod : (i + 1) % 256 = i + 1 := Nat.mod_eq_of_lt (by omega)
    by_cases hc : prev ≠ sampleAt bus 0 ∧ (i + 1) % 256 < N
    · have hlt : i + 1 < N := by rw [hmod] at hc; exact hc.2
      obtain ⟨m, hm1, hm2, _, hrun⟩ := ih f (sampleAt bus 0) (i + 1)
        (afterConversions bus 1 (ctrl % 256)) (by omega) (by omega) (by omega)
      refine ⟨m + 1, by omega, by omega, fun _ _ => by omega, ?_⟩
      rw [readLoopAux_succ, if_pos hc, hmod, hrun, sampleAt_afterConversions,
        afterConversions_add]
      have e1 : 1 + (m - 1) = m + 1 - 1 := by omega
      have e2 : 1 + m = m + 1 := by omega
      rw [e1, e2]
    · refine ⟨1, le_refl 1, by omega, fun h1 h2 => ?_, ?_⟩
      · exact absurd ⟨h1, by rw [hmod]; exact h2⟩ hc
      · rw [readLoopAux_succ, if_neg hc]

theorem readLoop_total (ctrl N : Nat) (hN : N ≤ 255) (bus : Bus) :
    ∃ m, 1 ≤ m ∧ (2 ≤ N → 2 ≤ m) ∧
      _readLoop ctrl N bus = some (sampleAt bus (m - 1), afterConversions bus m (ctrl % 256)) := by
  obtain ⟨m, h1, _, h2, hrun⟩ :=
    readLoopAux_total ctrl N hN 255 256 0xffff 0 bus (by omega) (by omega) (by omega)
  refine ⟨m, h1, fun hN2 => h2 ?_ (by omega), hrun⟩
  have := sampleAt_lt bus 0
  omega

theorem readLoop_one (ctrl : Nat) (bus : Bus) :
    _readLoop ctrl 1 bus = some (sampleAt bus 0, afterConversions bus 1 (ctrl % 256)) :=
  readLoopAux_run ctrl 1 0 256 0xffff 0 bus (by omega) (by omega) (fun t ht => by omega)
    (fun h => by omega) (fun t ht => by omega) (Or.inr (Or.inr (by omega)))

theorem toInt16_of_lt (n : Nat) (h : n < 32768) : toInt16 (n : Int) = (n : Int) := by
  unfold toInt16
  omega

/-- The straight-line code of `getRaw` around its two sampling loops. -/
theorem getRaw_of_loops (d : Driver) (pt : TS_Point) (mode : adc_ref_t) (N : Nat) (bus : Bus)
    (rx ry : Nat) (busx busy : Bus)
    (hx : _readLoop (CTRL_HI_X ||| (if mode = adc_ref_t.MODE_DFR then CTRL_LO_DFR
      else CTRL_LO_SER)) N (getRaw_primed d mode bus) = some (rx, busx))
    (hy : _readLoop (CTRL_HI_Y ||| (if mode = adc_ref_t.MODE_DFR then CTRL_LO_DFR
      else CTRL_LO_SER)) N busx = some (ry, busy)) :
    getRaw d pt mode N bus = some (⟨toInt16 rx, toInt16 ry⟩,
      digitalWrite (spi_end (transfer16
        (if mode = adc_ref_t.MODE_DFR then
          (transfer (transfer busy 0).2 (CTRL_HI_Y ||| CTRL_LO_SER)).2 else busy) 0).2)
        d._cs_pin true) := by
  unfold getRaw
  unfold getRaw_primed at hx
  simp only [hx, hy]

/-- Bus trace and result of `getRaw`, for both modes: `a` and `b` are the numbers of
conversions of the X and of the Y sampling loop. -/
theorem getRaw_run (d : Driver) (pt : TS_Point) (mode : adc_ref_t) (N : Nat) (bus : Bus)
    (hN : N ≤ 255) (cx cy : Nat)
    (hcx : cx = CTRL_HI_X ||| (if mode = adc_ref_t.MODE_DFR then CTRL_LO_DFR else CTRL_LO_SER))
    (hcy : cy = CTRL_HI_Y ||| (if mode = adc_ref_t.MODE_DFR then CTRL_LO_DFR else CTRL_LO_SER)) :
    ∃ a b busF, 1 ≤ a ∧ 1 ≤ b ∧ (N = 1 → a = 1 ∧ b = 1) ∧
      _readLoop cx N (getRaw_primed d mode bus)
        = some (sampleAt (getRaw_primed d mode bus) (a - 1),
            afterConversions (getRaw_primed d mode bus) a cx) ∧
      _readLoop cy N (afterConversions (getRaw_primed d mode bus) a cx)
        = some (sampleAt (getRaw_primed d mode bus) (a + b - 1),
            afterConversions (afterConversions (getRaw_primed d mode bus) a cx) b cy) ∧
      getRaw d pt mode N bus
        = some (⟨sampleAt (getRaw_primed d mode bus) (a - 1),
                 sampleAt (getRaw_primed d mode bus) (a + b - 1)⟩, busF) ∧
      busF.log = bus.log ++ [Event.digitalWrite d._cs_pin false, Event.transfer cx]
        ++ conversions a cx ++ conversions b cy
        ++ (if mode = adc_ref_t.MODE_DFR then [Event.transfer 0, Event.transfer 0xD4] else [])
        ++ [Event.transfer 0, Event.transfer 0, Event.digitalWrite d._cs_pin true] := by
  have hx256 : cx % 256 = cx := by
    subst hcx; cases mode <;> decide
  have hy256 : cy % 256 = cy := by
    subst hcy; cases mode <;> decide
  obtain ⟨a, ha, _, hxrun⟩ := readLoop_total cx N hN (getRaw_primed d mode bus)
  obtain ⟨b, hb, _, hyrun⟩ :=
    readLoop_total cy N hN (afterConversions (getRaw_primed d mode bus) a cx)
  rw [hx256] at hxrun
  rw [hy256, sampleAt_afterConversions] at hyrun
  have eab : a + (b - 1) = a + b - 1 := by omega
  rw [eab] at hyrun
  have hone : N = 1 → a = 1 ∧ b = 1 := by
    intro h1
    subst h1
    have h1x := readLoop_one cx (getRaw_primed d mode bus)
    have h1y := readLoop_one cy (afterConversions (getRaw_primed d mode bus) a cx)
    rw [hxrun] at h1x
    rw [hyrun] at h1y
    have px := congrArg (fun r => (r.map fun q => q.2.pos)) h1x
    have py := congrArg (fun r => (r.map fun q => q.2.pos)) h1y
    simp only [Option.map_some', afterConversions, Option.some.injEq] at px py
    omega
  subst hcx hcy
  have hg := getRaw_of_loops d pt mode N bus _ _ _ _ hxrun hyrun
  rw [toInt16_of_lt _ (by have := sampleAt_lt (getRaw_primed d mode bus) (a - 1); omega),
    toInt16_of_lt _ (by have := sampleAt_lt (getRaw_primed d mode bus) (a + b - 1); omega)] at hg
  refine ⟨a, b, _, ha, hb, hone, hxrun, hyrun, hg, ?_⟩
  cases mode <;>
    simp [digitalWrite, spi_end, spi_begin, transfer16, transfer, afterConversions,
      getRaw_primed, CTRL_HI_X, CTRL_HI_Y, CTRL_LO_SER, CTRL_LO_DFR]

/-! ## The codec and the sampling loop: claims -/

/-- C1: for every 12-bit value `v` in 0..4095, the decoder of `_readLoop` applied to
`byte0 = v >> 4` and `byte1 = (v & 0xF) << 4` returns exactly `v`; accordingly
`_readLoop`, reading these two bytes from the bus, returns `v`. -/
theorem decode_roundtrip (v : Nat) (hv : v ≤ 4095) :
    decode (v >>> 4) ((v &&& 0xF) <<< 4) = v ∧
    ∀ (ctrl : Nat) (bus : Bus), bus.resp bus.pos = v >>> 4 →
      bus.resp (bus.pos + 1) = (v &&& 0xF) <<< 4 →
      (_readLoop ctrl 1 bus).map Prod.fst = some v := by
  have hr : v >>> 4 = v / 16 := by rw [Nat.shiftRight_eq_div_pow]
  have hm : v &&& 0xF = v % 16 := Nat.and_pow_two_sub_one_eq_mod v 4
  have hl : (v % 16) <<< 4 = v % 16 * 16 := by rw [Nat.shiftLeft_eq]
  have hdec : decode (v >>> 4) ((v &&& 0xF) <<< 4) = v := by
    rw [hr, hm, hl, decode_eq _ _ (by omega) (by omega)]
    omega
  refine ⟨hdec, fun ctrl bus h0 h1 => ?_⟩
  rw [readLoop_one]
  simp only [Option.map_some', sampleAt, Nat.mul_zero, Nat.add_zero, h0, h1]
  rw [Nat.mod_eq_of_lt (a := v >>> 4) (by omega),
    Nat.mod_eq_of_lt (a := (v &&& 0xF) <<< 4) (by omega), hdec]

/-- Witness of C1 at `v = 0xABC`. -/
theorem decode_roundtrip_witness :
    decode (0xABC >>> 4) ((0xABC &&& 0xF) <<< 4) = 0xABC ∧
    (_readLoop 0x93 1 (mockBus (fun n => [0xAB, 0xC0].getD n 0))).map Prod.fst = some 0xABC :=
  ⟨(decode_roundtrip 0xABC (by decide)).1,
   (decode_roundtrip 0xABC (by decide)).2 0x93 (mockBus (fun n => [0xAB, 0xC0].getD n 0))
     (by decide) (by decide)⟩

/-- C2: let `s_1, s_2, ...` be the samples decoded from the successive response byte
pairs (`s_j = sampleAt bus (j-1)`).  For every cap `N` in 2..255 and every `k ≥ 1`
with `k + 1 ≤ N` such that `s_k = s_(k+1)` is the first pair of equal consecutive
samples, `_readLoop` returns `s_k` and performs exactly `k + 1` conversions, that is
`2(k+1)` byte transfers. -/
theorem readLoop_convergence (ctrl N k : Nat) (bus : Bus) (hN : 2 ≤ N ∧ N ≤ 255)
    (hk : 1 ≤ k) (hkN : k + 1 ≤ N)
    (hfirst : ∀ j, 1 ≤ j → j < k → sampleAt bus (j - 1) ≠ sampleAt bus j)
    (heq : sampleAt bus (k - 1) = sampleAt bus k) :
    _readLoop ctrl N bus
        = some (sampleAt bus (k - 1), afterConversions bus (k + 1) (ctrl % 256)) ∧
      (afterConversions bus (k + 1) (ctrl % 256)).pos = bus.pos + 2 * (k + 1) := by
  refine ⟨?_, rfl⟩
  rw [heq]
  exact readLoopAux_run ctrl N k 256 0xffff 0 bus (by omega) (by omega)
    (fun t ht => by omega)
    (fun _ => by have := sampleAt_lt bus 0; omega)
    (fun t ht => hfirst (t + 1) (by omega) (by omega))
    (Or.inr (Or.inl ⟨by omega, heq⟩))

/-- Witness of C2: samples 16, 32, 32, ... with cap 5 converge at `k = 2`. -/
theorem readLoop_convergence_witness :
    _readLoop 0x93 5 (mockBus (fun n => [1, 0, 2, 0, 2, 0].getD n 0))
        = some (32, afterConversions (mockBus (fun n => [1, 0, 2, 0, 2, 0].getD n 0)) 3 0x93) :=
  (readLoop_convergence 0x93 5 2 (mockBus (fun n => [1, 0, 2, 0, 2, 0].getD n 0))
    (by decide) (by decide) (by decide)
    (fun j h1 h2 => by
      have hj : j = 1 := by omega
      subst hj
      decide)
    (by decide)).1

/-- C3: for every cap `N` in 1..255 and every response stream in which no two
consecutive samples among the first `N` are equal, `_readLoop` terminates after
exactly `N` conversions and returns the `N`-th sample. -/
theorem readLoop_cap (ctrl N : Nat) (bus : Bus) (hN : 1 ≤ N ∧ N ≤ 255)
    (hne : ∀ j, 1 ≤ j → j < N → sampleAt bus (j - 1) ≠ sampleAt bus j) :
    _readLoop ctrl N bus = some (sampleAt bus (N - 1), afterConversions bus N (ctrl % 256)) ∧
      (afterConversions bus N (ctrl % 256)).pos = bus.pos + 2 * N := by
  refine ⟨?_, rfl⟩
  have h := readLoopAux_run ctrl N (N - 1) 256 0xffff 0 bus (by omega) (by omega)
    (fun t ht => by omega)
    (fun _ => by have := sampleAt_lt bus 0; omega)
    (fun t ht => hne (t + 1) (by omega) (by omega))
    (Or.inr (Or.inr (by omega)))
  have e : N - 1 + 1 = N := by omega
  rw [e] at h
  exact h

/-- Witness of C3: samples 16, 32, 48 with cap 3 never converge. -/
theorem readLoop_cap_witness :
    _readLoop 0xD3 3 (mockBus (fun n => [1, 0, 2, 0, 3, 0].getD n 0))
        = some (48, afterConversions (mockBus (fun n => [1, 0, 2, 0, 3, 0].getD n 0)) 3 0xD3) :=
  (readLoop_cap 0xD3 3 (mockBus (fun n => [1, 0, 2, 0, 3, 0].getD n 0)) (by decide)
    (fun j h1 h2 => by
      have hj : j = 1 ∨ j = 2 := by omega
      rcases hj with hj | hj <;> subst hj <;> decide)).1

/-- C4: every decoded sample is in 0..4095 and so differs from the initial
"previous" sentinel 0xFFFF; hence `_readLoop` performs at least two conversions
whenever the cap `N` is at least 2, and with `N = 1` it performs exactly one
conversion and returns the first decoded sample unchanged; `getRaw` with cap 1
performs exactly one conversion per channel and returns the first two samples. -/
theorem readLoop_min_conversions (ctrl N : Nat) (bus : Bus) (d : Driver) (pt : TS_Point)
    (mode : adc_ref_t) :
    (∀ j, sampleAt bus j ≤ 4095 ∧ sampleAt bus j ≠ 0xffff) ∧
    (2 ≤ N → N ≤ 255 → ∃ m, 2 ≤ m ∧
      _readLoop ctrl N bus
        = some (sampleAt bus (m - 1), afterConversions bus m (ctrl % 256))) ∧
    _readLoop ctrl 1 bus = some (sampleAt bus 0, afterConversions bus 1 (ctrl % 256)) ∧
    ∃ busF, getRaw d pt mode 1 bus
        = some (⟨sampleAt (getRaw_primed d mode bus) 0,
                 sampleAt (getRaw_primed d mode bus) 1⟩, busF) ∧
      busF.log = bus.log
        ++ [Event.digitalWrite d._cs_pin false,
            Event.transfer (CTRL_HI_X ||| (if mode = adc_ref_t.MODE_DFR then CTRL_LO_DFR
              else CTRL_LO_SER))]
        ++ conversions 1 (CTRL_HI_X ||| (if mode = adc_ref_t.MODE_DFR then CTRL_LO_DFR
              else CTRL_LO_SER))
        ++ conversions 1 (CTRL_HI_Y ||| (if mode = adc_ref_t.MODE_DFR then CTRL_LO_DFR
              else CTRL_LO_SER))
        ++ (if mode = adc_ref_t.MODE_DFR then [Event.transfer 0, Event.transfer 0xD4] else [])
        ++ [Event.transfer 0, Event.transfer 0, Event.digitalWrite d._cs_pin true] := by
  refine ⟨fun j => ?_, fun h2 h255 => ?_, readLoop_one ctrl bus, ?_⟩
  · have := sampleAt_lt bus j
    omega
  · obtain ⟨m, _, hm, hrun⟩ := readLoop_total ctrl N h255 bus
    exact ⟨m, hm h2, hrun⟩
  · obtain ⟨a, b, busF, _, _, hone, _, _, hg, hlog⟩ :=
      getRaw_run d pt mode 1 bus (by omega) _ _ rfl rfl
    obtain ⟨ha, hb⟩ := hone rfl
    subst ha hb
    exact ⟨busF, hg, hlog⟩

/-- Witness of C4: with cap 2 the loop makes at least two conversions. -/
theorem readLoop_min_conversions_witness :
    ∃ m, 2 ≤ m ∧ _readLoop 0x93 2 (mockBus (fun n => n))
      = some (sampleAt (mockBus (fun n => n)) (m - 1),
          afterConversions (mockBus (fun n => n)) m (0x93 % 256)) :=
  (readLoop_min_conversions 0x93 2 (mockBus (fun n => n)) driver0 ⟨0, 0⟩
    adc_ref_t.MODE_DFR).2.1 (by decide) (by decide)

/-! ## The acquisition procedure: claims -/

/-- C5: for every response stream and every cap `N` in 1..255, `getRaw` in mode
`MODE_DFR` drives chip-select low, sends 0x93, then `a` pairs (0x00, 0x93), then `b`
pairs (0x00, 0xD3), then 0x00, 0xD4, 0x00, 0x00, and drives chip-select high, where
`a ≥ 1` and `b ≥ 1` are the numbers of conversions of the X and of the Y sampling
loop; the X sample is the one read first, the Y sample the one read after it. -/
theorem getRaw_trace_dfr (d : Driver) (pt : TS_Point) (N : Nat) (bus : Bus)
    (hN : 1 ≤ N ∧ N ≤ 255) :
    ∃ a b pt1 bus1, 1 ≤ a ∧ 1 ≤ b ∧
      getRaw d pt adc_ref_t.MODE_DFR N bus = some (pt1, bus1) ∧
      bus1.log = bus.log
        ++ [Event.digitalWrite d._cs_pin false, Event.transfer 0x93]
        ++ conversions a 0x93 ++ conversions b 0xD3
        ++ [Event.transfer 0x00, Event.transfer 0xD4, Event.transfer 0x00, Event.transfer 0x00,
            Event.digitalWrite d._cs_pin true] ∧
      _readLoop 0x93 N (getRaw_primed d adc_ref_t.MODE_DFR bus)
        = some (sampleAt (getRaw_primed d adc_ref_t.MODE_DFR bus) (a - 1),
            afterConversions (getRaw_primed d adc_ref_t.MODE_DFR bus) a 0x93) ∧
      _readLoop 0xD3 N (afterConversions (getRaw_primed d adc_ref_t.MODE_DFR bus) a 0x93)
        = some (sampleAt (getRaw_primed d adc_ref_t.MODE_DFR bus) (a + b - 1),
            afterConversions
              (afterConversions (getRaw_primed d adc_ref_t.MODE_DFR bus) a 0x93) b 0xD3) ∧
      pt1 = ⟨sampleAt (getRaw_primed d adc_ref_t.MODE_DFR bus) (a - 1),
             sampleAt (getRaw_primed d adc_ref_t.MODE_DFR bus) (a + b - 1)⟩ := by
  obtain ⟨a, b, busF, ha, hb, _, hx, hy, hg, hlog⟩ :=
    getRaw_run d pt adc_ref_t.MODE_DFR N bus hN.2 0x93 0xD3 (by decide) (by decide)
  refine ⟨a, b, _, busF, ha, hb, hg, ?_, hx, hy, rfl⟩
  rw [hlog]
  simp

/-- Witness of C5: cap 5 on a bus whose X channel answers 0x123 twice and whose Y
channel answers 0x456 twice; both loops converge after two conversions. -/
theorem getRaw_trace_dfr_witness :
    (∃ a b pt1 bus1, 1 ≤ a ∧ 1 ≤ b ∧
      getRaw driver0 ⟨0, 0⟩ adc_ref_t.MODE_DFR 5
        (mockBus (fun n => [0, 0x12, 0x30, 0x12, 0x30, 0x45, 0x60, 0x45, 0x60].getD n 0))
        = some (pt1, bus1) ∧
      bus1.log = (mockBus
          (fun n => [0, 0x12, 0x30, 0x12, 0x30, 0x45, 0x60, 0x45, 0x60].getD n 0)).log
        ++ [Event.digitalWrite driver0._cs_pin false, Event.transfer 0x93]
        ++ conversions a 0x93 ++ conversions b 0xD3
        ++ [Event.transfer 0x00, Event.transfer 0xD4, Event.transfer 0x00, Event.transfer 0x00,
            Event.digitalWrite driver0._cs_pin true]) ∧
    (getRaw driver0 ⟨0, 0⟩ adc_ref_t.MODE_DFR 5
        (mockBus (fun n => [0, 0x12, 0x30, 0x12, 0x30, 0x45, 0x60, 0x45, 0x60].getD n 0))).map
      (fun r => (r.1, r.2.log))
      = some (⟨0x123, 0x456⟩,
          [Event.digitalWrite 10 false, Event.transfer 0x93,
           Event.transfer 0x00, Event.transfer 0x93, Event.transfer 0x00, Event.transfer 0x93,
           Event.transfer 0x00, Event.transfer 0xD3, Event.transfer 0x00, Event.transfer 0xD3,
           Event.transfer 0x00, Event.transfer 0xD4, Event.transfer 0x00, Event.transfer 0x00,
           Event.digitalWrite 10 true]) :=
  ⟨(getRaw_trace_dfr driver0 ⟨0, 0⟩ 5
      (mockBus (fun n => [0, 0x12, 0x30, 0x12, 0x30, 0x45, 0x60, 0x45, 0x60].getD n 0))
      (by decide)).elim
      (fun a h1 => h1.elim (fun b h2 => h2.elim (fun pt1 h3 => h3.elim
        (fun bus1 h => ⟨a, b, pt1, bus1, h.1, h.2.1, h.2.2.1, h.2.2.2.1⟩)))),
   by decide⟩

/-- C6: for every response stream and every cap `N` in 1..255, `getRaw` in mode
`MODE_SER` sends between chip-select low and chip-select high exactly 0x94, then `a`
pairs (0x00, 0x94), then `b` pairs (0x00, 0xD4), then the flush 0x00, 0x00; no
re-arming pair is inserted after the Y samples. -/
theorem getRaw_trace_ser (d : Driver) (pt : TS_Point) (N : Nat) (bus : Bus)
    (hN : 1 ≤ N ∧ N ≤ 255) :
    ∃ a b pt1 bus1, 1 ≤ a ∧ 1 ≤ b ∧
      getRaw d pt adc_ref_t.MODE_SER N bus = some (pt1, bus1) ∧
      bus1.log = bus.log
        ++ [Event.digitalWrite d._cs_pin false, Event.transfer 0x94]
        ++ conversions a 0x94 ++ conversions b 0xD4
        ++ [Event.transfer 0x00, Event.transfer 0x00, Event.digitalWrite d._cs_pin true] ∧
      _readLoop 0x94 N (getRaw_primed d adc_ref_t.MODE_SER bus)
        = some (sampleAt (getRaw_primed d adc_ref_t.MODE_SER bus) (a - 1),
            afterConversions (getRaw_primed d adc_ref_t.MODE_SER bus) a 0x94) ∧
      _readLoop 0xD4 N (afterConversions (getRaw_primed d adc_ref_t.MODE_SER bus) a 0x94)
        = some (sampleAt (getRaw_primed d adc_ref_t.MODE_SER bus) (a + b - 1),
            afterConversions
              (afterConversions (getRaw_primed d adc_ref_t.MODE_SER bus) a 0x94) b 0xD4) ∧
      pt1 = ⟨sampleAt (getRaw_primed d adc_ref_t.MODE_SER bus) (a - 1),
             sampleAt (getRaw_primed d adc_ref_t.MODE_SER bus) (a + b - 1)⟩ := by
  obtain ⟨a, b, busF, ha, hb, _, hx, hy, hg, hlog⟩ :=
    getRaw_run d pt adc_ref_t.MODE_SER N bus hN.2 0x94 0xD4 (by decide) (by decide)
  refine ⟨a, b, _, busF, ha, hb, hg, ?_, hx, hy, rfl⟩
  rw [hlog]
  simp

/-- Witness of C6: cap 5 on a bus whose X channel answers 0x123 twice and whose Y
channel answers 0x456 twice; both loops converge after two conversions. -/
theorem getRaw_trace_ser_witness :
    (∃ a b pt1 bus1, 1 ≤ a ∧ 1 ≤ b ∧
      getRaw driver0 ⟨0, 0⟩ adc_ref_t.MODE_SER 5
        (mockBus (fun n => [0, 0x12, 0x30, 0x12, 0x30, 0x45, 0x60, 0x45, 0x60].getD n 0))
        = some (pt1, bus1) ∧
      bus1.log = (mockBus
          (fun n => [0, 0x12, 0x30, 0x12, 0x30, 0x45, 0x60, 0x45, 0x60].getD n 0)).log
        ++ [Event.digitalWrite driver0._cs_pin false, Event.transfer 0x94]
        ++ conversions a 0x94 ++ conversions b 0xD4
        ++ [Event.transfer 0x00, Event.transfer 0x00,
            Event.digitalWrite driver0._cs_pin true]) ∧
    (getRaw driver0 ⟨0, 0⟩ adc_ref_t.MODE_SER 5
        (mockBus (fun n => [0, 0x12, 0x30, 0x12, 0x30, 0x45, 0x60, 0x45, 0x60].getD n 0))).map
      (fun r => (r.1, r.2.log))
      = some (⟨0x123, 0x456⟩,
          [Event.digitalWrite 10 false, Event.transfer 0x94,
           Event.transfer 0x00, Event.transfer 0x94, Event.transfer 0x00, Event.transfer 0x94,
           Event.transfer 0x00, Event.transfer 0xD4, Event.transfer 0x00, Event.transfer 0xD4,
           Event.transfer 0x00, Event.transfer 0x00,
           Event.digitalWrite 10 true]) :=
  ⟨(getRaw_trace_ser driver0 ⟨0, 0⟩ 5
      (mockBus (fun n => [0, 0x12, 0x30, 0x12, 0x30, 0x45, 0x60, 0x45, 0x60].getD n 0))
      (by decide)).elim
      (fun a h1 => h1.elim (fun b h2 => h2.elim (fun pt1 h3 => h3.elim
        (fun bus1 h => ⟨a, b, pt1, bus1, h.1, h.2.1, h.2.2.1, h.2.2.2.1⟩)))),
   by decide⟩

/-! ## Lemmas on the calibration -/

theorem abs_int_eq (x : Int) : abs_int x = |x| := by
  unfold abs_int
  split
  · rw [abs_of_pos ‹_›]
  · rw [abs_of_nonpos (by omega)]

theorem toInt16_of_range (n : Int) (h0 : -32768 ≤ n) (h1 : n < 32768) : toInt16 n = n := by
  unfold toInt16
  omega

/-- The stored average of two raw coordinates is their integer mean. -/
theorem toInt16_average (a b : Int) (ha : 0 ≤ a ∧ a ≤ 4095) (hb : 0 ≤ b ∧ b ≤ 4095) :
    toInt16 ((a + b).tdiv 2) = (a + b) / 2 := by
  rw [Int.tdiv_eq_ediv (by omega) (by decide)]
  exact toInt16_of_range _ (by omega) (by omega)

theorem setCalibration_average_swapped_flag (d : Driver) :
    (setCalibration_average d)._is_swapped = d._is_swapped := by
  unfold setCalibration_average
  split <;> rfl

theorem setCalibration_average_of_unswapped (d : Driver) (h : d._is_swapped = false) :
    setCalibration_average d =
      { d with
        _cal_point_1 := ⟨toInt16 ((d._cal_point_1.x + d._cal_point_3.x).tdiv 2),
                         toInt16 ((d._cal_point_1.y + d._cal_point_2.y).tdiv 2)⟩
        _cal_point_2 := ⟨toInt16 ((d._cal_point_2.x + d._cal_point_4.x).tdiv 2),
                         toInt16 ((d._cal_point_1.y + d._cal_point_2.y).tdiv 2)⟩
        _cal_point_3 := ⟨toInt16 ((d._cal_point_1.x + d._cal_point_3.x).tdiv 2),
                         toInt16 ((d._cal_point_3.y + d._cal_point_4.y).tdiv 2)⟩
        _cal_point_4 := ⟨toInt16 ((d._cal_point_2.x + d._cal_point_4.x).tdiv 2),
                         toInt16 ((d._cal_point_3.y + d._cal_point_4.y).tdiv 2)⟩ } := by
  unfold setCalibration_average
  simp [h]

theorem setCalibration_average_of_swapped (d : Driver) (h : d._is_swapped = true) :
    setCalibration_average d =
      { d with
        _cal_point_1 := ⟨toInt16 ((d._cal_point_1.x + d._cal_point_2.x).tdiv 2),
                         toInt16 ((d._cal_point_1.y + d._cal_point_3.y).tdiv 2)⟩
        _cal_point_2 := ⟨toInt16 ((d._cal_point_1.x + d._cal_point_2.x).tdiv 2),
                         toInt16 ((d._cal_point_2.y + d._cal_point_4.y).tdiv 2)⟩
        _cal_point_3 := ⟨toInt16 ((d._cal_point_3.x + d._cal_point_4.x).tdiv 2),
                         toInt16 ((d._cal_point_1.y + d._cal_point_3.y).tdiv 2)⟩
        _cal_point_4 := ⟨toInt16 ((d._cal_point_3.x + d._cal_point_4.x).tdiv 2),
                         toInt16 ((d._cal_point_2.y + d._cal_point_4.y).tdiv 2)⟩ } := by
  unfold setCalibration_average
  simp [h]

/-- The three outcomes of `setCalibration` on raw points, in terms of the absolute
differences compared by the code. -/
theorem setCalibration_cases (d : Driver) (p1 p2 p3 p4 : TS_Point)
    (h1 : InRaw p1) (h2 : InRaw p2) (h3 : InRaw p3) :
    setCalibration d p1 p2 p3 p4 =
      if |p2.x - p1.x| < |p2.y - p1.y| then
        if |p3.x - p1.x| > |p3.y - p1.y| then
          (true, setCalibration_average
            { d with _cal_point_1 := p1, _cal_point_2 := p2, _cal_point_3 := p3,
                     _cal_point_4 := p4, _is_swapped := true })
        else
          (false, { d with _cal_point_1 := p1, _cal_point_2 := p2, _cal_point_3 := p3,
                           _cal_point_4 := p4 })
      else
        (true, setCalibration_average
          { d with _cal_point_1 := p1, _cal_point_2 := p2, _cal_point_3 := p3,
                   _cal_point_4 := p4, _is_swapped := false }) := by
  obtain ⟨a1, a2, a3, a4⟩ := h1
  obtain ⟨b1, b2, b3, b4⟩ := h2
  obtain ⟨c1, c2, c3, c4⟩ := h3
  unfold setCalibration
  simp only [abs_int_eq]
  rw [toInt16_of_range (p2.x - p1.x) (by omega) (by omega),
    toInt16_of_range (p2.y - p1.y) (by omega) (by omega),
    toInt16_of_range (p3.x - p1.x) (by omega) (by omega),
    toInt16_of_range (p3.y - p1.y) (by omega) (by omega)]

/-! ## The calibration: claims -/

/-- C7: axis-swap detection of `setCalibration`, for all four input points with
coordinates in 0..4095: if `|p2.x - p1.x| ≥ |p2.y - p1.y|` it returns true with
`axes_swapped = false`; otherwise, if `|p3.x - p1.x| > |p3.y - p1.y|` it returns true
with `axes_swapped = true`; otherwise it returns false. -/
theorem setCalibration_swap_detection (d : Driver) (p1 p2 p3 p4 : TS_Point)
    (h1 : InRaw p1) (h2 : InRaw p2) (h3 : InRaw p3) (h4 : InRaw p4) :
    (|p2.x - p1.x| ≥ |p2.y - p1.y| →
      (setCalibration d p1 p2 p3 p4).1 = true ∧
      (setCalibration d p1 p2 p3 p4).2._is_swapped = false) ∧
    (|p2.x - p1.x| < |p2.y - p1.y| → |p3.x - p1.x| > |p3.y - p1.y| →
      (setCalibration d p1 p2 p3 p4).1 = true ∧
      (setCalibration d p1 p2 p3 p4).2._is_swapped = true) ∧
    (|p2.x - p1.x| < |p2.y - p1.y| → ¬ (|p3.x - p1.x| > |p3.y - p1.y|) →
      (setCalibration d p1 p2 p3 p4).1 = false) := by
  have _ := h4
  rw [setCalibration_cases d p1 p2 p3 p4 h1 h2 h3]
  refine ⟨fun h => ?_, fun h h' => ?_, fun h h' => ?_⟩
  · rw [if_neg (not_lt.mpr h)]
    exact ⟨rfl, setCalibration_average_swapped_flag _⟩
  · rw [if_pos h, if_pos h']
    exact ⟨rfl, setCalibration_average_swapped_flag _⟩
  · rw [if_pos h, if_neg h']

/-- Witness of C7: the two calibrations given with the claim, the first detected as
not swapped, the second as swapped. -/
theorem setCalibration_swap_detection_witness :
    ((setCalibration driver0 ⟨100, 100⟩ ⟨900, 110⟩ ⟨110, 900⟩ ⟨900, 900⟩).1 = true ∧
     (setCalibration driver0 ⟨100, 100⟩ ⟨900, 110⟩ ⟨110, 900⟩ ⟨900, 900⟩).2._is_swapped
        = false) ∧
    ((setCalibration driver0 ⟨100, 900⟩ ⟨100, 100⟩ ⟨900, 900⟩ ⟨900, 100⟩).1 = true ∧
     (setCalibration driver0 ⟨100, 900⟩ ⟨100, 100⟩ ⟨900, 900⟩ ⟨900, 100⟩).2._is_swapped
        = true) :=
  ⟨(setCalibration_swap_detection driver0 ⟨100, 100⟩ ⟨900, 110⟩ ⟨110, 900⟩ ⟨900, 900⟩
      (by decide) (by decide) (by decide) (by decide)).1 (by decide),
   (setCalibration_swap_detection driver0 ⟨100, 900⟩ ⟨100, 100⟩ ⟨900, 900⟩ ⟨900, 100⟩
      (by decide) (by decide) (by decide) (by decide)).2.1 (by decide) (by decide)⟩

/-- C8, as the code stands: `setCalibration` called with four equal points
`(500,500)` does not return false. -/
theorem setCalibration_degenerate_not_rejected :
    (setCalibration driver0 ⟨500, 500⟩ ⟨500, 500⟩ ⟨500, 500⟩ ⟨500, 500⟩).1 ≠ false := by
  decide

/-- C8 amended: `setCalibration` called with `p1 = p2 = p3 = p4 = (500,500)` returns
true, with `axes_swapped = false` and the four stored points equal to `(500,500)`:
`|Δx| = 0` is not less than `|Δy| = 0`, which is the unswapped case. -/
theorem setCalibration_degenerate_accepted (d : Driver) :
    setCalibration d ⟨500, 500⟩ ⟨500, 500⟩ ⟨500, 500⟩ ⟨500, 500⟩ =
      (true, { d with _is_swapped := false,
                      _cal_point_1 := ⟨500, 500⟩, _cal_point_2 := ⟨500, 500⟩,
                      _cal_point_3 := ⟨500, 500⟩, _cal_point_4 := ⟨500, 500⟩ }) := by
  rw [setCalibration_cases d _ _ _ _ (by decide) (by decide) (by decide),
    if_neg (by decide), setCalibration_average_of_unswapped _ rfl]
  rfl

/-- C9, as the code stands: on a calibrated driver, a call of `setCalibration` that
returns false leaves stored points that differ from those stored before the call. -/
theorem setCalibration_failure_not_atomic :
    (setCalibration
        (setCalibration driver0 ⟨200, 200⟩ ⟨3895, 200⟩ ⟨200, 3895⟩ ⟨3895, 3895⟩).2
        ⟨500, 500⟩ ⟨500, 600⟩ ⟨500, 700⟩ ⟨600, 700⟩).1 = false ∧
    ¬ ((setCalibration
        (setCalibration driver0 ⟨200, 200⟩ ⟨3895, 200⟩ ⟨200, 3895⟩ ⟨3895, 3895⟩).2
        ⟨500, 500⟩ ⟨500, 600⟩ ⟨500, 700⟩ ⟨600, 700⟩).2
      = (setCalibration driver0 ⟨200, 200⟩ ⟨3895, 200⟩ ⟨200, 3895⟩ ⟨3895, 3895⟩).2) ∧
    (setCalibration
        (setCalibration driver0 ⟨200, 200⟩ ⟨3895, 200⟩ ⟨200, 3895⟩ ⟨3895, 3895⟩).2
        ⟨500, 500⟩ ⟨500, 600⟩ ⟨500, 700⟩ ⟨600, 700⟩).2._cal_point_1
      ≠ (setCalibration driver0 ⟨200, 200⟩ ⟨3895, 200⟩ ⟨200, 3895⟩
          ⟨3895, 3895⟩).2._cal_point_1 := by
  decide

/-- C9 amended: for every driver state and every four input points for which
`setCalibration` returns false, the `axes_swapped` flag (and every field other than
the four stored points) is the same after the call as before it, and the four stored
points P1..P4 are the input points p1..p4 as given. -/
theorem setCalibration_failure_state (d : Driver) (p1 p2 p3 p4 : TS_Point)
    (hret : (setCalibration d p1 p2 p3 p4).1 = false) :
    (setCalibration d p1 p2 p3 p4).2 =
      { d with _cal_point_1 := p1, _cal_point_2 := p2, _cal_point_3 := p3,
               _cal_point_4 := p4 } ∧
    (setCalibration d p1 p2 p3 p4).2._is_swapped = d._is_swapped := by
  unfold setCalibration at hret ⊢
  simp only at hret ⊢
  split at hret
  · split at hret
    · exact Bool.noConfusion hret
    · rename_i ha hb
      rw [if_pos ha, if_neg hb]
      exact ⟨rfl, rfl⟩
  · exact Bool.noConfusion hret

/-- Witness of C9 amended: the failing call of the counterexample. -/
theorem setCalibration_failure_state_witness :
    (setCalibration driver0 ⟨500, 500⟩ ⟨500, 600⟩ ⟨500, 700⟩ ⟨600, 700⟩).2 =
      { driver0 with _cal_point_1 := ⟨500, 500⟩, _cal_point_2 := ⟨500, 600⟩,
                     _cal_point_3 := ⟨500, 700⟩, _cal_point_4 := ⟨600, 700⟩ } ∧
    (setCalibration driver0 ⟨500, 500⟩ ⟨500, 600⟩ ⟨500, 700⟩ ⟨600, 700⟩).2._is_swapped
      = driver0._is_swapped :=
  setCalibration_failure_state driver0 ⟨500, 500⟩ ⟨500, 600⟩ ⟨500, 700⟩ ⟨600, 700⟩ (by decide)

/-- C10: for all input points with coordinates in 0..4095 for which `setCalibration`
returns true, leaving the driver `S`: if `axes_swapped` is false then
`P1.x = P3.x = (p1.x + p3.x)/2`, `P2.x = P4.x = (p2.x + p4.x)/2`,
`P1.y = P2.y = (p1.y + p2.y)/2` and `P3.y = P4.y = (p3.y + p4.y)/2`; if it is true then
`P1.x = P2.x = (p1.x + p2.x)/2`, `P3.x = P4.x = (p3.x + p4.x)/2`,
`P1.y = P3.y = (p1.y + p3.y)/2` and `P2.y = P4.y = (p2.y + p4.y)/2` (integer division). -/
theorem setCalibration_averaged_rectangle (d S : Driver) (p1 p2 p3 p4 : TS_Point)
    (h1 : InRaw p1) (h2 : InRaw p2) (h3 : InRaw p3) (h4 : InRaw p4)
    (hret : setCalibration d p1 p2 p3 p4 = (true, S)) :
    (S._is_swapped = false →
      (S._cal_point_1.x = (p1.x + p3.x) / 2 ∧ S._cal_point_3.x = (p1.x + p3.x) / 2) ∧
      (S._cal_point_2.x = (p2.x + p4.x) / 2 ∧ S._cal_point_4.x = (p2.x + p4.x) / 2) ∧
      (S._cal_point_1.y = (p1.y + p2.y) / 2 ∧ S._cal_point_2.y = (p1.y + p2.y) / 2) ∧
      (S._cal_point_3.y = (p3.y + p4.y) / 2 ∧ S._cal_point_4.y = (p3.y + p4.y) / 2)) ∧
    (S._is_swapped = true →
      (S._cal_point_1.x = (p1.x + p2.x) / 2 ∧ S._cal_point_2.x = (p1.x + p2.x) / 2) ∧
      (S._cal_point_3.x = (p3.x + p4.x) / 2 ∧ S._cal_point_4.x = (p3.x + p4.x) / 2) ∧
      (S._cal_point_1.y = (p1.y + p3.y) / 2 ∧ S._cal_point_3.y = (p1.y + p3.y) / 2) ∧
      (S._cal_point_2.y = (p2.y + p4.y) / 2 ∧ S._cal_point_4.y = (p2.y + p4.y) / 2)) := by
  have a1 := h1; have a2 := h2; have a3 := h3; have a4 := h4
  unfold InRaw at a1 a2 a3 a4
  rw [setCalibration_cases d p1 p2 p3 p4 h1 h2 h3] at hret
  split at hret
  · split at hret
    · rw [setCalibration_average_of_swapped _ rfl] at hret
      have hS := (Prod.mk.inj hret).2
      subst hS
      refine ⟨fun h => Bool.noConfusion h, fun _ => ?_⟩
      simp only
      rw [toInt16_average _ _ ⟨a1.1, a1.2.1⟩ ⟨a2.1, a2.2.1⟩,
        toInt16_average _ _ ⟨a3.1, a3.2.1⟩ ⟨a4.1, a4.2.1⟩,
        toInt16_average _ _ ⟨a1.2.2.1, a1.2.2.2⟩ ⟨a3.2.2.1, a3.2.2.2⟩,
        toInt16_average _ _ ⟨a2.2.2.1, a2.2.2.2⟩ ⟨a4.2.2.1, a4.2.2.2⟩]
      exact ⟨⟨rfl, rfl⟩, ⟨rfl, rfl⟩, ⟨rfl, rfl⟩, ⟨rfl, rfl⟩⟩
    · exact Bool.noConfusion (Prod.mk.inj hret).1
  · rw [setCalibration_average_of_unswapped _ rfl] at hret
    have hS := (Prod.mk.inj hret).2
    subst hS
    refine ⟨fun _ => ?_, fun h => Bool.noConfusion h⟩
    simp only
    rw [toInt16_average _ _ ⟨a1.1, a1.2.1⟩ ⟨a3.1, a3.2.1⟩,
      toInt16_average _ _ ⟨a2.1, a2.2.1⟩ ⟨a4.1, a4.2.1⟩,
      toInt16_average _ _ ⟨a1.2.2.1, a1.2.2.2⟩ ⟨a2.2.2.1, a2.2.2.2⟩,
      toInt16_average _ _ ⟨a3.2.2.1, a3.2.2.2⟩ ⟨a4.2.2.1, a4.2.2.2⟩]
    exact ⟨⟨rfl, rfl⟩, ⟨rfl, rfl⟩, ⟨rfl, rfl⟩, ⟨rfl, rfl⟩⟩

/-- Witness of C10: an unswapped and a swapped calibration with slightly skewed
corners; the stored points are the averaged rectangle. -/
theorem setCalibration_averaged_rectangle_witness :
    ((setCalibration driver0 ⟨100, 100⟩ ⟨900, 110⟩ ⟨110, 900⟩ ⟨900, 900⟩).2._cal_point_1.x = 105
      ∧ (setCalibration driver0 ⟨100, 100⟩ ⟨900, 110⟩ ⟨110, 900⟩ ⟨900, 900⟩).2._cal_point_3.x
        = 105) ∧
    ((setCalibration driver0 ⟨100, 900⟩ ⟨101, 100⟩ ⟨900, 901⟩ ⟨900, 100⟩).2._cal_point_1.x = 100
      ∧ (setCalibration driver0 ⟨100, 900⟩ ⟨101, 100⟩ ⟨900, 901⟩ ⟨900, 100⟩).2._cal_point_2.x
        = 100) :=
  ⟨((setCalibration_averaged_rectangle driver0
      (setCalibration driver0 ⟨100, 100⟩ ⟨900, 110⟩ ⟨110, 900⟩ ⟨900, 900⟩).2
      ⟨100, 100⟩ ⟨900, 110⟩ ⟨110, 900⟩ ⟨900, 900⟩
      (by decide) (by decide) (by decide) (by decide) (by decide)).1 (by decide)).1,
   ((setCalibration_averaged_rectangle driver0
      (setCalibration driver0 ⟨100, 900⟩ ⟨101, 100⟩ ⟨900, 901⟩ ⟨900, 100⟩).2
      ⟨100, 900⟩ ⟨101, 100⟩ ⟨900, 901⟩ ⟨900, 100⟩
      (by decide) (by decide) (by decide) (by decide) (by decide)).2 (by decide)).1⟩

/-! ## Lemmas on the stored calibration and the coordinate pipeline -/

/-- The driver left by a successful `setCalibration` on raw points: the averaged
rectangle of the unswapped case or that of the swapped case. -/
theorem setCalibration_success (d S : Driver) (p1 p2 p3 p4 : TS_Point)
    (h1 : InRaw p1) (h2 : InRaw p2) (h3 : InRaw p3) (h4 : InRaw p4)
    (hret : setCalibration d p1 p2 p3 p4 = (true, S)) :
    (¬ (|p2.x - p1.x| < |p2.y - p1.y|) ∧
      S = { d with
            _is_swapped := false
            _cal_point_1 := ⟨(p1.x + p3.x) / 2, (p1.y + p2.y) / 2⟩
            _cal_point_2 := ⟨(p2.x + p4.x) / 2, (p1.y + p2.y) / 2⟩
            _cal_point_3 := ⟨(p1.x + p3.x) / 2, (p3.y + p4.y) / 2⟩
            _cal_point_4 := ⟨(p2.x + p4.x) / 2, (p3.y + p4.y) / 2⟩ }) ∨
    (|p2.x - p1.x| < |p2.y - p1.y| ∧ |p3.x - p1.x| > |p3.y - p1.y| ∧
      S = { d with
            _is_swapped := true
            _cal_point_1 := ⟨(p1.x + p2.x) / 2, (p1.y + p3.y) / 2⟩
            _cal_point_2 := ⟨(p1.x + p2.x) / 2, (p2.y + p4.y) / 2⟩
            _cal_point_3 := ⟨(p3.x + p4.x) / 2, (p1.y + p3.y) / 2⟩
            _cal_point_4 := ⟨(p3.x + p4.x) / 2, (p2.y + p4.y) / 2⟩ }) := by
  have a1 := h1; have a2 := h2; have a3 := h3; have a4 := h4
  unfold InRaw at a1 a2 a3 a4
  rw [setCalibration_cases d p1 p2 p3 p4 h1 h2 h3] at hret
  split at hret
  · rename_i hlt
    split at hret
    · rename_i hgt
      rw [setCalibration_average_of_swapped _ rfl] at hret
      have hS := (Prod.mk.inj hret).2
      subst hS
      refine Or.inr ⟨hlt, hgt, ?_⟩
      simp only
      rw [toInt16_average _ _ ⟨a1.1, a1.2.1⟩ ⟨a2.1, a2.2.1⟩,
        toInt16_average _ _ ⟨a3.1, a3.2.1⟩ ⟨a4.1, a4.2.1⟩,
        toInt16_average _ _ ⟨a1.2.2.1, a1.2.2.2⟩ ⟨a3.2.2.1, a3.2.2.2⟩,
        toInt16_average _ _ ⟨a2.2.2.1, a2.2.2.2⟩ ⟨a4.2.2.1, a4.2.2.2⟩]
    · exact Bool.noConfusion (Prod.mk.inj hret).1
  · rename_i hlt
    rw [setCalibration_average_of_unswapped _ rfl] at hret
    have hS := (Prod.mk.inj hret).2
    subst hS
    refine Or.inl ⟨hlt, ?_⟩
    simp only
    rw [toInt16_average _ _ ⟨a1.1, a1.2.1⟩ ⟨a3.1, a3.2.1⟩,
      toInt16_average _ _ ⟨a2.1, a2.2.1⟩ ⟨a4.1, a4.2.1⟩,
      toInt16_average _ _ ⟨a1.2.2.1, a1.2.2.2⟩ ⟨a2.2.2.1, a2.2.2.2⟩,
      toInt16_average _ _ ⟨a3.2.2.1, a3.2.2.2⟩ ⟨a4.2.2.1, a4.2.2.2⟩]

/-- An exact axis-aligned rectangle of raw points, given in the unswapped order, is
stored as it is. -/
theorem setCalibration_rect_unswapped (d : Driver) (a b c e : Int)
    (ha : 0 ≤ a ∧ a ≤ 4095) (hb : 0 ≤ b ∧ b ≤ 4095) (hc : 0 ≤ c ∧ c ≤ 4095)
    (he : 0 ≤ e ∧ e ≤ 4095) :
    setCalibration d ⟨a, c⟩ ⟨b, c⟩ ⟨a, e⟩ ⟨b, e⟩ =
      (true, { d with _is_swapped := false
                      _cal_point_1 := ⟨a, c⟩, _cal_point_2 := ⟨b, c⟩
                      _cal_point_3 := ⟨a, e⟩, _cal_point_4 := ⟨b, e⟩ }) := by
  have hh : ∀ t : Int, (t + t) / 2 = t := fun t => by omega
  rw [setCalibration_cases _ _ _ _ _ (by unfold InRaw; simp only; omega)
    (by unfold InRaw; simp only; omega) (by unfold InRaw; simp only; omega)]
  simp only [sub_self, abs_zero]
  rw [if_neg (not_lt.mpr (abs_nonneg _)), setCalibration_average_of_unswapped _ rfl]
  simp only
  rw [toInt16_average _ _ ha ha, toInt16_average _ _ hb hb, toInt16_average _ _ hc hc,
    toInt16_average _ _ he he]
  simp only [hh]

/-- An exact axis-aligned rectangle of raw points with distinct edges, given in the
swapped order, is detected as swapped and stored as it is. -/
theorem setCalibration_rect_swapped (d : Driver) (a b c e : Int)
    (ha : 0 ≤ a ∧ a ≤ 4095) (hb : 0 ≤ b ∧ b ≤ 4095) (hc : 0 ≤ c ∧ c ≤ 4095)
    (he : 0 ≤ e ∧ e ≤ 4095) (hab : b ≠ a) (hce : e ≠ c) :
    setCalibration d ⟨a, c⟩ ⟨a, e⟩ ⟨b, c⟩ ⟨b, e⟩ =
      (true, { d with _is_swapped := true
                      _cal_point_1 := ⟨a, c⟩, _cal_point_2 := ⟨a, e⟩
                      _cal_point_3 := ⟨b, c⟩, _cal_point_4 := ⟨b, e⟩ }) := by
  have hh : ∀ t : Int, (t + t) / 2 = t := fun t => by omega
  rw [setCalibration_cases _ _ _ _ _ (by unfold InRaw; simp only; omega)
    (by unfold InRaw; simp only; omega) (by unfold InRaw; simp only; omega)]
  simp only [sub_self, abs_zero]
  rw [if_pos (abs_pos.mpr (sub_ne_zero.mpr hce)), if_pos (abs_pos.mpr (sub_ne_zero.mpr hab)),
    setCalibration_average_of_swapped _ rfl]
  simp only
  rw [toInt16_average _ _ ha ha, toInt16_average _ _ hb hb, toInt16_average _ _ hc hc,
    toInt16_average _ _ he he]
  simp only [hh]

/-! ## The stored calibration: claims -/

/-- C11, as the code stands: `setCalibration` with four equal raw points `(500,500)`
returns true with `axes_swapped = false` and stores `P2.x = P1.x`, so the division of
the linear map of `getPosition` has no result. -/
theorem setCalibration_zero_denominator :
    (setCalibration driver0 ⟨500, 500⟩ ⟨500, 500⟩ ⟨500, 500⟩ ⟨500, 500⟩).1 = true ∧
    (setCalibration driver0 ⟨500, 500⟩ ⟨500, 500⟩ ⟨500, 500⟩ ⟨500, 500⟩).2._is_swapped = false ∧
    ¬ ((setCalibration driver0 ⟨500, 500⟩ ⟨500, 500⟩ ⟨500, 500⟩ ⟨500, 500⟩).2._cal_point_2.x
      ≠ (setCalibration driver0 ⟨500, 500⟩ ⟨500, 500⟩ ⟨500, 500⟩ ⟨500, 500⟩).2._cal_point_1.x) ∧
    getPosition_map (setCalibration driver0 ⟨500, 500⟩ ⟨500, 500⟩ ⟨500, 500⟩ ⟨500, 500⟩).2
      ⟨600, 600⟩ = none := by
  decide

/-- C11 amended: for all input points with coordinates in 0..4095 for which
`setCalibration` returns true, leaving the driver `S`: when `axes_swapped` is false,
`P2.x ≠ P1.x` provided the x readings of both left corners lie strictly on the same
side of those of the right corners (`p1.x < p2.x` and `p3.x < p4.x`, or both
reversed); when `axes_swapped` is true, `P2.y ≠ P1.y` provided `p1.y < p2.y` and
`p3.y < p4.y`, or both reversed. -/
theorem setCalibration_nonzero_denominator (d S : Driver) (p1 p2 p3 p4 : TS_Point)
    (h1 : InRaw p1) (h2 : InRaw p2) (h3 : InRaw p3) (h4 : InRaw p4)
    (hret : setCalibration d p1 p2 p3 p4 = (true, S)) :
    (S._is_swapped = false →
      (p1.x < p2.x ∧ p3.x < p4.x) ∨ (p2.x < p1.x ∧ p4.x < p3.x) →
      S._cal_point_2.x ≠ S._cal_point_1.x) ∧
    (S._is_swapped = true →
      (p1.y < p2.y ∧ p3.y < p4.y) ∨ (p2.y < p1.y ∧ p4.y < p3.y) →
      S._cal_point_2.y ≠ S._cal_point_1.y) := by
  rcases setCalibration_success d S p1 p2 p3 p4 h1 h2 h3 h4 hret with ⟨_, hS⟩ | ⟨_, _, hS⟩
  · subst hS
    refine ⟨fun _ hord => ?_, fun h => Bool.noConfusion h⟩
    simp only
    omega
  · subst hS
    refine ⟨fun h => Bool.noConfusion h, fun _ hord => ?_⟩
    simp only
    omega

/-- Witness of C11 amended: a slightly skewed unswapped calibration. -/
theorem setCalibration_nonzero_denominator_witness :
    (setCalibration driver0 ⟨100, 100⟩ ⟨900, 110⟩ ⟨110, 900⟩ ⟨900, 900⟩).2._cal_point_2.x
      ≠ (setCalibration driver0 ⟨100, 100⟩ ⟨900, 110⟩ ⟨110, 900⟩ ⟨900, 900⟩).2._cal_point_1.x :=
  (setCalibration_nonzero_denominator driver0
    (setCalibration driver0 ⟨100, 100⟩ ⟨900, 110⟩ ⟨110, 900⟩ ⟨900, 900⟩).2
    ⟨100, 100⟩ ⟨900, 110⟩ ⟨110, 900⟩ ⟨900, 900⟩
    (by decide) (by decide) (by decide) (by decide) (by decide)).1 (by decide)
    (Or.inl ⟨by decide, by decide⟩)

/-- C19: for all input points with coordinates in 0..4095 for which `setCalibration`
returns true and leaves a stored calibration `S` whose two linear-map denominators
are nonzero, calling `setCalibration` again with the stored points P1..P4 returns
true and leaves the four stored points and the `axes_swapped` flag unchanged. -/
theorem setCalibration_idempotent (d S : Driver) (p1 p2 p3 p4 : TS_Point)
    (h1 : InRaw p1) (h2 : InRaw p2) (h3 : InRaw p3) (h4 : InRaw p4)
    (hret : setCalibration d p1 p2 p3 p4 = (true, S))
    (hden : (S._is_swapped = false →
        S._cal_point_2.x ≠ S._cal_point_1.x ∧ S._cal_point_3.y ≠ S._cal_point_1.y) ∧
      (S._is_swapped = true →
        S._cal_point_2.y ≠ S._cal_point_1.y ∧ S._cal_point_3.x ≠ S._cal_point_1.x)) :
    setCalibration S S._cal_point_1 S._cal_point_2 S._cal_point_3 S._cal_point_4 = (true, S) := by
  have a1 := h1; have a2 := h2; have a3 := h3; have a4 := h4
  unfold InRaw at a1 a2 a3 a4
  rcases setCalibration_success d S p1 p2 p3 p4 h1 h2 h3 h4 hret with ⟨_, hS⟩ | ⟨_, _, hS⟩
  · subst hS
    exact setCalibration_rect_unswapped _ _ _ _ _ (by omega) (by omega) (by omega) (by omega)
  · subst hS
    have hd := hden.2 rfl
    simp only at hd
    exact setCalibration_rect_swapped _ _ _ _ _ (by omega) (by omega) (by omega) (by omega)
      (fun h => hd.2 h) (fun h => hd.1 h)

/-- Witness of C19: the swapped calibration of scenario "axes swapped" is a fixed
point of `setCalibration`. -/
theorem setCalibration_idempotent_witness :
    setCalibration (setCalibration driver0 ⟨100, 900⟩ ⟨101, 100⟩ ⟨900, 901⟩ ⟨900, 100⟩).2
      (setCalibration driver0 ⟨100, 900⟩ ⟨101, 100⟩ ⟨900, 901⟩ ⟨900, 100⟩).2._cal_point_1
      (setCalibration driver0 ⟨100, 900⟩ ⟨101, 100⟩ ⟨900, 901⟩ ⟨900, 100⟩).2._cal_point_2
      (setCalibration driver0 ⟨100, 900⟩ ⟨101, 100⟩ ⟨900, 901⟩ ⟨900, 100⟩).2._cal_point_3
      (setCalibration driver0 ⟨100, 900⟩ ⟨101, 100⟩ ⟨900, 901⟩ ⟨900, 100⟩).2._cal_point_4
    = (true, (setCalibration driver0 ⟨100, 900⟩ ⟨101, 100⟩ ⟨900, 901⟩ ⟨900, 100⟩).2) :=
  setCalibration_idempotent driver0
    (setCalibration driver0 ⟨100, 900⟩ ⟨101, 100⟩ ⟨900, 901⟩ ⟨900, 100⟩).2
    ⟨100, 900⟩ ⟨101, 100⟩ ⟨900, 901⟩ ⟨900, 100⟩
    (by decide) (by decide) (by decide) (by decide) (by decide) (by decide)

/-! ## Lemmas on the bus sessions -/

theorem controlBytes_append (l1 l2 : List Event) :
    controlBytes (l1 ++ l2) = controlBytes l1 ++ controlBytes l2 := by
  unfold controlBytes
  rw [List.filterMap_append]

theorem conversions_succ (b ctrl : Nat) :
    conversions (b + 1) ctrl = conversions b ctrl ++ [Event.transfer 0, Event.transfer ctrl] := by
  rw [conversions_add]
  rfl

/-! ## The bus sessions: claims -/

/-- C18: for every mode, every cap and every response stream, the last control byte
(byte with the start bit 7 set) among the bytes `getRaw` sends before it releases
chip-select is 0xD4, whose power-down bits 1..0 are 00; and `powerDown` sends exactly
0xD4, 0x00, 0x00 between chip-select low and chip-select high. -/
theorem getRaw_rearms_touch_detect (d : Driver) (pt : TS_Point) (mode : adc_ref_t) (N : Nat)
    (bus : Bus) (hN : N ≤ 255) :
    (∃ pt1 bus1 tr, getRaw d pt mode N bus = some (pt1, bus1) ∧
      bus1.log = bus.log ++ tr ++ [Event.digitalWrite d._cs_pin true] ∧
      lastControlByte tr = some 0xD4) ∧
    0xD4 &&& 0b11 = 0 ∧
    (powerDown d bus).log = bus.log ++
      [Event.digitalWrite d._cs_pin false, Event.transfer 0xD4, Event.transfer 0x00,
       Event.transfer 0x00, Event.digitalWrite d._cs_pin true] := by
  refine ⟨?_, by decide, ?_⟩
  · obtain ⟨a, b, busF, _, hb, _, _, _, hg, hlog⟩ :=
      getRaw_run d pt mode N bus hN _ _ rfl rfl
    obtain ⟨b', rfl⟩ : ∃ b', b = b' + 1 := ⟨b - 1, by omega⟩
    cases mode
    · refine ⟨_, busF, [Event.digitalWrite d._cs_pin false, Event.transfer 0x94]
        ++ conversions a 0x94 ++ conversions b' 0xD4
        ++ [Event.transfer 0, Event.transfer 0xD4] ++ [Event.transfer 0, Event.transfer 0],
        hg, ?_, ?_⟩
      · rw [hlog, conversions_succ]
        simp [CTRL_HI_X, CTRL_HI_Y, CTRL_LO_SER]
      · unfold lastControlByte
        rw [controlBytes_append, controlBytes_append]
        have e1 : controlBytes [Event.transfer 0, Event.transfer 0xD4] = [0xD4] := by decide
        have e2 : controlBytes [Event.transfer 0, Event.transfer 0] = [] := by decide
        rw [e1, e2, List.append_nil, List.getLast?_concat]
    · refine ⟨_, busF, [Event.digitalWrite d._cs_pin false, Event.transfer 0x93]
        ++ conversions a 0x93 ++ conversions (b' + 1) 0xD3
        ++ [Event.transfer 0, Event.transfer 0xD4] ++ [Event.transfer 0, Event.transfer 0],
        hg, ?_, ?_⟩
      · rw [hlog]
        simp [CTRL_HI_X, CTRL_HI_Y, CTRL_LO_DFR]
      · unfold lastControlByte
        rw [controlBytes_append, controlBytes_append]
        have e1 : controlBytes [Event.transfer 0, Event.transfer 0xD4] = [0xD4] := by decide
        have e2 : controlBytes [Event.transfer 0, Event.transfer 0] = [] := by decide
        rw [e1, e2, List.append_nil, List.getLast?_concat]
  · simp [powerDown, digitalWrite, spi_begin, spi_end, transfer16, transfer, CTRL_HI_Y,
      CTRL_LO_SER]

/-- Witness of C18: a single-ended acquisition with cap 5. -/
theorem getRaw_rearms_touch_detect_witness :
    (∃ pt1 bus1 tr,
      getRaw driver0 ⟨0, 0⟩ adc_ref_t.MODE_SER 5 (readingBus 0x123 0x456) = some (pt1, bus1) ∧
      bus1.log = (readingBus 0x123 0x456).log ++ tr
        ++ [Event.digitalWrite driver0._cs_pin true] ∧
      lastControlByte tr = some 0xD4) ∧
    lastControlByte
      [Event.digitalWrite 10 false, Event.transfer 0x94,
       Event.transfer 0x00, Event.transfer 0x94, Event.transfer 0x00, Event.transfer 0x94,
       Event.transfer 0x00, Event.transfer 0xD4, Event.transfer 0x00, Event.transfer 0xD4,
       Event.transfer 0x00, Event.transfer 0x00] = some 0xD4 :=
  ⟨(getRaw_rearms_touch_detect driver0 ⟨0, 0⟩ adc_ref_t.MODE_SER 5 (readingBus 0x123 0x456)
      (by decide)).1,
   by decide⟩

/-! ## The coordinate pipeline: lemmas -/

/-- With touch present `getPosition` is the acquisition followed by the linear map
and the rotation. -/
theorem getPosition_of_touch (d : Driver) (pos : TS_Point) (mode : adc_ref_t) (N : Nat)
    (pins : Nat → Bool) (bus : Bus) (raw : TS_Point) (bus1 : Bus)
    (htouch : pins d._irq_pin = false)
    (hraw : getRaw d ⟨0, 0⟩ mode N bus = some (raw, bus1)) :
    getPosition d pos mode N pins bus =
      (getPosition_map d raw).map (fun p => (getPosition_rotate d p, bus1)) := by
  unfold getPosition isTouching
  simp only [htouch, hraw, beq_self_eq_true, Bool.not_true, Bool.false_eq_true, if_false]
  cases getPosition_map d raw <;> rfl

/-- Every point read by `getRaw` is a raw point. -/
theorem getRaw_inRaw (d : Driver) (pt : TS_Point) (mode : adc_ref_t) (N : Nat) (bus : Bus)
    (raw : TS_Point) (bus1 : Bus) (hN : N ≤ 255)
    (hraw : getRaw d pt mode N bus = some (raw, bus1)) : InRaw raw := by
  obtain ⟨a, b, busF, _, _, _, _, _, hg, _⟩ := getRaw_run d pt mode N bus hN _ _ rfl rfl
  rw [hg] at hraw
  have hp := (Prod.mk.inj (Option.some.inj hraw)).1
  subst hp
  have hx := sampleAt_lt (getRaw_primed d mode bus) (a - 1)
  have hy := sampleAt_lt (getRaw_primed d mode bus) (a + b - 1)
  unfold InRaw
  simp only
  omega

theorem toInt32_of_range (n : Int) (h0 : -2147483648 ≤ n) (h1 : n < 2147483648) :
    toInt32 n = n := by
  unfold toInt32
  omega

theorem toInt16_range (n : Int) : -32768 ≤ toInt16 n ∧ toInt16 n ≤ 32767 := by
  unfold toInt16
  omega

theorem abs_tdiv_le (a b : Int) : |a.tdiv b| ≤ |a| := by
  rw [Int.abs_eq_natAbs, Int.abs_eq_natAbs, Int.natAbs_tdiv]
  exact Int.ofNat_le.mpr (Nat.div_le_self _ _)

/-- One coordinate of the linear map needs no more than 32 bits: with `|dx| ≤ 32767`
and a raw difference of at most 36863 in size, no 32-bit operation wraps. -/
theorem linear_term_exact (dx t den : Int) (hdx : |dx| ≤ 32767) (ht : |t| ≤ 36863) :
    toInt32 ((CAL_MARGIN : Int) + toInt32 ((toInt32 (dx * t)).tdiv den))
      = 20 + (dx * t).tdiv den := by
  have hp : |dx * t| ≤ 32767 * 36863 := by
    rw [abs_mul]
    exact mul_le_mul hdx ht (abs_nonneg _) (by norm_num)
  have hq : |(dx * t).tdiv den| ≤ 32767 * 36863 := le_trans (abs_tdiv_le _ _) hp
  have hp2 := abs_le.mp hp
  have hq2 := abs_le.mp hq
  have hm : ((CAL_MARGIN : Nat) : Int) = 20 := rfl
  rw [toInt32_of_range (dx * t) (by omega) (by omega),
    toInt32_of_range ((dx * t).tdiv den) (by omega) (by omega), hm,
    toInt32_of_range _ (by omega) (by omega)]

/-- The linear map sends a calibration coordinate to its anchor: the near edge to the
margin, the far edge to the margin plus the screen delta. -/
theorem anchor_coord (dx a b : Int) (hdx : 0 ≤ dx ∧ dx ≤ 32727) (ha : 0 ≤ a ∧ a ≤ 4095)
    (hb : 0 ≤ b ∧ b ≤ 4095) (hab : b ≠ a) :
    toInt16 (toInt32 ((CAL_MARGIN : Int) + toInt32 ((toInt32 (dx * (a - a))).tdiv (b - a))))
      = 20 ∧
    toInt16 (toInt32 ((CAL_MARGIN : Int) + toInt32 ((toInt32 (dx * (b - a))).tdiv (b - a))))
      = 20 + dx := by
  have hdx1 : |dx| ≤ 32767 := abs_le.mpr ⟨by omega, by omega⟩
  constructor
  · rw [linear_term_exact dx (a - a) (b - a) hdx1 (abs_le.mpr ⟨by omega, by omega⟩)]
    simp only [sub_self, mul_zero, Int.zero_tdiv, add_zero]
    rfl
  · rw [linear_term_exact dx (b - a) (b - a) hdx1 (abs_le.mpr ⟨by omega, by omega⟩),
      Int.mul_tdiv_cancel _ (sub_ne_zero.mpr hab)]
    exact toInt16_of_range _ (by omega) (by omega)

/-- Method `setCalibration` writes the four points and the swap flag only. -/
theorem setCalibration_frame (d : Driver) (p1 p2 p3 p4 : TS_Point) :
    (setCalibration d p1 p2 p3 p4).2._width = d._width ∧
    (setCalibration d p1 p2 p3 p4).2._height = d._height ∧
    (setCalibration d p1 p2 p3 p4).2._cal_dx = d._cal_dx ∧
    (setCalibration d p1 p2 p3 p4).2._cal_dy = d._cal_dy ∧
    (setCalibration d p1 p2 p3 p4).2._rotation = d._rotation ∧
    (setCalibration d p1 p2 p3 p4).2._cs_pin = d._cs_pin ∧
    (setCalibration d p1 p2 p3 p4).2._irq_pin = d._irq_pin := by
  unfold setCalibration
  simp only
  split
  · split
    · unfold setCalibration_average
      exact ⟨rfl, rfl, rfl, rfl, rfl, rfl, rfl⟩
    · exact ⟨rfl, rfl, rfl, rfl, rfl, rfl, rfl⟩
  · unfold setCalibration_average
    exact ⟨rfl, rfl, rfl, rfl, rfl, rfl, rfl⟩

/-- Method `begin` stores the screen size and the deltas between the anchors. -/
theorem begin_cal_delta (d d1 : Driver) (width height : Nat) (bus bus1 : Bus)
    (hw : width ≤ 65535) (hh : height ≤ 65535)
    (hb : begin d width height bus = some (d1, bus1)) :
    d1._width = width ∧ d1._height = height ∧
    d1._cal_dx = (width : Int) - 40 ∧ d1._cal_dy = (height : Int) - 40 ∧
    d1._rotation = d._rotation := by
  unfold begin at hb
  simp only at hb
  split at hb
  · exact Option.noConfusion hb
  · have h1 := (Prod.mk.inj (Option.some.inj hb)).1
    subst h1
    have hm : ((CAL_MARGIN : Nat) : Int) = 20 := rfl
    obtain ⟨f1, f2, f3, f4, f5, _, _⟩ := setCalibration_frame
      { d with _width := width, _height := height,
               _cal_dx := toInt32 ((width : Int) - 2 * (CAL_MARGIN : Int)),
               _cal_dy := toInt32 ((height : Int) - 2 * (CAL_MARGIN : Int)) }
      ⟨toInt16 ((CAL_MARGIN * ADC_MAX / width : Nat) : Int),
       toInt16 ((CAL_MARGIN * ADC_MAX / height : Nat) : Int)⟩
      ⟨toInt16 ((width : Int) - ((CAL_MARGIN * ADC_MAX / width : Nat) : Int)),
       toInt16 ((CAL_MARGIN * ADC_MAX / height : Nat) : Int)⟩
      ⟨toInt16 ((CAL_MARGIN * ADC_MAX / width : Nat) : Int),
       toInt16 ((height : Int) - ((CAL_MARGIN * ADC_MAX / height : Nat) : Int))⟩
      ⟨toInt16 ((width : Int) - ((CAL_MARGIN * ADC_MAX / width : Nat) : Int)),
       toInt16 ((height : Int) - ((CAL_MARGIN * ADC_MAX / height : Nat) : Int))⟩
    refine ⟨f1, f2, ?_, ?_, f5⟩
    · rw [f3]
      simp only [hm]
      exact toInt32_of_range _ (by omega) (by omega)
    · rw [f4]
      simp only [hm]
      exact toInt32_of_range _ (by omega) (by omega)

/-- With touch present and rotation 0 the point returned by `getPosition` is the
linear map of the point read by `getRaw`. -/
theorem getPosition_rot0 (d : Driver) (pos raw : TS_Point) (mode : adc_ref_t) (N : Nat)
    (pins : Nat → Bool) (bus : Bus)
    (htouch : pins d._irq_pin = false) (hrot : d._rotation = rotation_t.ROT_0)
    (hraw : (getRaw d ⟨0, 0⟩ mode N bus).map Prod.fst = some raw) :
    (getPosition d pos mode N pins bus).map Prod.fst = getPosition_map d raw := by
  obtain ⟨⟨raw1, bus1⟩, hg, hr⟩ := Option.map_eq_some'.mp hraw
  simp only at hr
  subst hr
  have hrotate : ∀ p, getPosition_rotate d p = p := by
    intro p
    unfold getPosition_rotate
    rw [hrot]
  rw [getPosition_of_touch d pos mode N pins bus raw1 bus1 htouch hg]
  cases getPosition_map d raw1 with
  | none => rfl
  | some p => simp only [Option.map_some', hrotate]

/-- The linear map of an unswapped exact rectangle sends its corners to the anchors. -/
theorem getPosition_map_rect_unswapped (d : Driver) (a b c e : Int)
    (hdx : 0 ≤ d._cal_dx ∧ d._cal_dx ≤ 32727) (hdy : 0 ≤ d._cal_dy ∧ d._cal_dy ≤ 32727)
    (ha : 0 ≤ a ∧ a ≤ 4095) (hb : 0 ≤ b ∧ b ≤ 4095) (hc : 0 ≤ c ∧ c ≤ 4095)
    (he : 0 ≤ e ∧ e ≤ 4095) (hab : b ≠ a) (hce : e ≠ c) (S : Driver)
    (hS : S = { d with _is_swapped := false
                       _cal_point_1 := ⟨a, c⟩, _cal_point_2 := ⟨b, c⟩
                       _cal_point_3 := ⟨a, e⟩, _cal_point_4 := ⟨b, e⟩ }) :
    getPosition_map S ⟨a, c⟩ = some ⟨20, 20⟩ ∧
    getPosition_map S ⟨b, c⟩ = some ⟨20 + d._cal_dx, 20⟩ ∧
    getPosition_map S ⟨a, e⟩ = some ⟨20, 20 + d._cal_dy⟩ ∧
    getPosition_map S ⟨b, e⟩ = some ⟨20 + d._cal_dx, 20 + d._cal_dy⟩ := by
  obtain ⟨x0, x1⟩ := anchor_coord d._cal_dx a b hdx ha hb hab
  obtain ⟨y0, y1⟩ := anchor_coord d._cal_dy c e hdy hc he hce
  have hn : ¬ (b - a = 0 ∨ e - c = 0) :=
    not_or.mpr ⟨sub_ne_zero.mpr hab, sub_ne_zero.mpr hce⟩
  subst hS
  unfold getPosition_map
  simp only [Bool.false_eq_true, if_false, if_neg hn, x0, x1, y0, y1, and_self]

/-- The linear map of a swapped exact rectangle sends its corners to the anchors. -/
theorem getPosition_map_rect_swapped (d : Driver) (a b c e : Int)
    (hdx : 0 ≤ d._cal_dx ∧ d._cal_dx ≤ 32727) (hdy : 0 ≤ d._cal_dy ∧ d._cal_dy ≤ 32727)
    (ha : 0 ≤ a ∧ a ≤ 4095) (hb : 0 ≤ b ∧ b ≤ 4095) (hc : 0 ≤ c ∧ c ≤ 4095)
    (he : 0 ≤ e ∧ e ≤ 4095) (hab : b ≠ a) (hce : e ≠ c) (S : Driver)
    (hS : S = { d with _is_swapped := true
                       _cal_point_1 := ⟨a, c⟩, _cal_point_2 := ⟨a, e⟩
                       _cal_point_3 := ⟨b, c⟩, _cal_point_4 := ⟨b, e⟩ }) :
    getPosition_map S ⟨a, c⟩ = some ⟨20, 20⟩ ∧
    getPosition_map S ⟨a, e⟩ = some ⟨20 + d._cal_dx, 20⟩ ∧
    getPosition_map S ⟨b, c⟩ = some ⟨20, 20 + d._cal_dy⟩ ∧
    getPosition_map S ⟨b, e⟩ = some ⟨20 + d._cal_dx, 20 + d._cal_dy⟩ := by
  obtain ⟨x0, x1⟩ := anchor_coord d._cal_dx c e hdx hc he hce
  obtain ⟨y0, y1⟩ := anchor_coord d._cal_dy a b hdy ha hb hab
  have hn : ¬ (e - c = 0 ∨ b - a = 0) :=
    not_or.mpr ⟨sub_ne_zero.mpr hce, sub_ne_zero.mpr hab⟩
  subst hS
  unfold getPosition_map
  simp only [if_true, if_neg hn, x0, x1, y0, y1, and_self]

/-! ## The coordinate pipeline: claims -/

/-- C15: for every driver state, mode and cap, when the IRQ pin reads high (no touch)
`getPosition` sets both output components to the sentinel 0xFFFF (stored in an
`int16_t`: the 16-bit pattern 0xFFFF, which reads as -1) and leaves the bus as it was:
no transfer and no chip-select write. -/
theorem getPosition_no_touch (d : Driver) (pos : TS_Point) (mode : adc_ref_t) (N : Nat)
    (pins : Nat → Bool) (bus : Bus) (hirq : pins d._irq_pin = true) :
    getPosition d pos mode N pins bus = some (⟨toInt16 0xffff, toInt16 0xffff⟩, bus) ∧
    toInt16 0xffff % 65536 = 0xffff ∧ toInt16 0xffff = -1 := by
  refine ⟨?_, by decide, by decide⟩
  unfold getPosition isTouching
  simp [hirq]

/-- Witness of C15: an idle panel on a bus with pending responses. -/
theorem getPosition_no_touch_witness :
    (getPosition (begun 240 320) ⟨5, 5⟩ adc_ref_t.MODE_DFR 0xff idlePins
      (readingBus 2047 2047)).map (fun r => (r.1, r.2.pos, r.2.log))
      = some (⟨-1, -1⟩, 0, []) :=
  congrArg (Option.map (fun r => (r.1, r.2.pos, r.2.log)))
    (getPosition_no_touch (begun 240 320) ⟨5, 5⟩ adc_ref_t.MODE_DFR 0xff idlePins
      (readingBus 2047 2047) (by decide)).1

/-- C16, as the code stands: the calibration of scenario E4 does not set
`axes_swapped = true`. -/
theorem scenario_E4_not_swapped :
    (setCalibration (begun 240 320) ⟨3900, 200⟩ ⟨200, 200⟩ ⟨3900, 3900⟩
      ⟨200, 3900⟩).2._is_swapped ≠ true := by
  decide

/-- C16 amended: `setCalibration` with `p1=(3900,200)`, `p2=(200,200)`,
`p3=(3900,3900)`, `p4=(200,3900)` returns true and sets `axes_swapped = false`
(`|Δx| = 3700 ≥ |Δy| = 0`: the x axis is mirrored, not exchanged with y), and on a
240x320 screen at rotation 0 the raw reading `(2047,2047)` is then mapped by
`getPosition` to `(120,159)`, within 1 of `(120,160)` in each component. -/
theorem setCalibration_E4 (d : Driver) :
    setCalibration d ⟨3900, 200⟩ ⟨200, 200⟩ ⟨3900, 3900⟩ ⟨200, 3900⟩ =
      (true, { d with _is_swapped := false
                      _cal_point_1 := ⟨3900, 200⟩, _cal_point_2 := ⟨200, 200⟩
                      _cal_point_3 := ⟨3900, 3900⟩, _cal_point_4 := ⟨200, 3900⟩ }) ∧
    (getPosition
      (setCalibration (begun 240 320) ⟨3900, 200⟩ ⟨200, 200⟩ ⟨3900, 3900⟩ ⟨200, 3900⟩).2
      ⟨0, 0⟩ adc_ref_t.MODE_DFR 0xff touchPins (readingBus 2047 2047)).map (fun r => r.1)
      = some ⟨120, 159⟩ ∧
    |(120 : Int) - 120| ≤ 1 ∧ |(159 : Int) - 160| ≤ 1 := by
  refine ⟨?_, by decide, by decide, by decide⟩
  exact setCalibration_rect_unswapped d 3900 200 200 3900 (by omega) (by omega) (by omega)
    (by omega)

/-- C17, the code at `begin(240, 320)`: the stored default calibration is
`P1 = (341,255)`, `P2 = (-101,255)`, `P3 = (341,65)`, `P4 = (-101,65)` with
`axes_swapped = false`; the second anchor is `width - margin*ADC_MAX/width`, not
`(width - margin)*ADC_MAX/width`. -/
theorem begin_default_calibration_240_320 :
    (begin driver0 240 320 (mockBus (fun _ => 0))).map
      (fun r => (r.1._cal_point_1, r.1._cal_point_2, r.1._cal_point_3, r.1._cal_point_4,
        r.1._is_swapped))
      = some (⟨341, 255⟩, ⟨-101, 255⟩, ⟨341, 65⟩, ⟨-101, 65⟩, false) ∧
    ((20 * 4095 / 240 : Int), ((240 - 20) * 4095 / 240 : Int),
      (20 * 4095 / 320 : Int), ((320 - 20) * 4095 / 320 : Int)) = (341, 3753, 255, 3839) := by
  decide

/-- C20, as the code stands: on a 240x320 screen the on-screen point `(0,0)` is
rotated by 180 degrees to `(240,320)`, which is not inside `[0,240) x [0,320)`. -/
theorem getPosition_rotate_leaves_screen :
    getPosition_rotate (setRotation (begun 240 320) rotation_t.ROT_180) ⟨0, 0⟩ = ⟨240, 320⟩ ∧
    ¬ ((getPosition_rotate (setRotation (begun 240 320) rotation_t.ROT_180) ⟨0, 0⟩).x < 240 ∧
       (getPosition_rotate (setRotation (begun 240 320) rotation_t.ROT_180) ⟨0, 0⟩).y < 320) := by
  decide

/-- C20 amended: for every screen size (width, height ≤ 32767) and every unrotated
screen point `(x, y)` with `0 ≤ x < width` and `0 ≤ y < height`, the rotation step of
`getPosition` yields `(width - x, height - y)` in `(0, width] x (0, height]` at
rotation 180, `(y, width - x)` in `[0, height) x (0, width]` at rotation 90 and
`(height - y, x)` in `(0, height] x [0, width)` at rotation 270. -/
theorem getPosition_rotate_range (d : Driver) (x y : Int)
    (hw : d._width ≤ 32767) (hh : d._height ≤ 32767)
    (hx : 0 ≤ x ∧ x < d._width) (hy : 0 ≤ y ∧ y < d._height) :
    (getPosition_rotate (setRotation d rotation_t.ROT_180) ⟨x, y⟩
        = ⟨(d._width : Int) - x, (d._height : Int) - y⟩ ∧
      0 < (d._width : Int) - x ∧ (d._width : Int) - x ≤ d._width ∧
      0 < (d._height : Int) - y ∧ (d._height : Int) - y ≤ d._height) ∧
    (getPosition_rotate (setRotation d rotation_t.ROT_90) ⟨x, y⟩
        = ⟨y, (d._width : Int) - x⟩ ∧
      0 ≤ y ∧ y < d._height ∧ 0 < (d._width : Int) - x ∧ (d._width : Int) - x ≤ d._width) ∧
    (getPosition_rotate (setRotation d rotation_t.ROT_270) ⟨x, y⟩
        = ⟨(d._height : Int) - y, x⟩ ∧
      0 < (d._height : Int) - y ∧ (d._height : Int) - y ≤ d._height ∧
      0 ≤ x ∧ x < d._width) := by
  have ew : toInt16 ((d._width : Int) - x) = (d._width : Int) - x :=
    toInt16_of_range _ (by omega) (by omega)
  have eh : toInt16 ((d._height : Int) - y) = (d._height : Int) - y :=
    toInt16_of_range _ (by omega) (by omega)
  refine ⟨⟨?_, by omega, by omega, by omega, by omega⟩,
    ⟨?_, by omega, by omega, by omega, by omega⟩,
    ⟨?_, by omega, by omega, by omega, by omega⟩⟩
  · simp only [getPosition_rotate, setRotation, ew, eh]
  · simp only [getPosition_rotate, setRotation, swap, ew]
  · simp only [getPosition_rotate, setRotation, swap, eh]

/-- Witness of C20 amended: the corner `(0,0)` and the point `(60,80)` on 240x320. -/
theorem getPosition_rotate_range_witness :
    getPosition_rotate (setRotation (begun 240 320) rotation_t.ROT_180) ⟨60, 80⟩
      = ⟨((begun 240 320)._width : Int) - 60, ((begun 240 320)._height : Int) - 80⟩ ∧
    getPosition_rotate (setRotation (begun 240 320) rotation_t.ROT_90) ⟨0, 0⟩
      = ⟨0, ((begun 240 320)._width : Int) - 0⟩ :=
  ⟨(getPosition_rotate_range (begun 240 320) 60 80 (by decide) (by decide)
      ⟨by decide, by decide⟩ ⟨by decide, by decide⟩).1.1,
   (getPosition_rotate_range (begun 240 320) 0 0 (by decide) (by decide)
      ⟨by decide, by decide⟩ ⟨by decide, by decide⟩).2.1.1⟩

/-- C13, as the code stands: on a 240x320 screen with the unswapped calibration
`(0,0), (1,0), (0,1), (1,1)` (nonzero denominators), rotation 0 and touch present, the
raw reading `(164,0)` gives `x = -32716`, whereas `margin + dx*(raw.x - P1.x)/(P2.x - P1.x)`
is `20 + 200*164/1 = 32820`: the result is stored in a signed 16-bit component. -/
theorem linear_map_result_wraps :
    (setCalibration (begun 240 320) ⟨0, 0⟩ ⟨1, 0⟩ ⟨0, 1⟩ ⟨1, 1⟩).1 = true ∧
    (setCalibration (begun 240 320) ⟨0, 0⟩ ⟨1, 0⟩ ⟨0, 1⟩ ⟨1, 1⟩).2._is_swapped = false ∧
    (setCalibration (begun 240 320) ⟨0, 0⟩ ⟨1, 0⟩ ⟨0, 1⟩ ⟨1, 1⟩).2._rotation
      = rotation_t.ROT_0 ∧
    (getRaw (setCalibration (begun 240 320) ⟨0, 0⟩ ⟨1, 0⟩ ⟨0, 1⟩ ⟨1, 1⟩).2 ⟨0, 0⟩
      adc_ref_t.MODE_DFR 0xff (readingBus 164 0)).map Prod.fst = some ⟨164, 0⟩ ∧
    (getPosition (setCalibration (begun 240 320) ⟨0, 0⟩ ⟨1, 0⟩ ⟨0, 1⟩ ⟨1, 1⟩).2 ⟨0, 0⟩
      adc_ref_t.MODE_DFR 0xff touchPins (readingBus 164 0)).map Prod.fst
      = some ⟨-32716, 20⟩ ∧
    (20 + ((240 : Int) - 40) * (164 - 0) / (1 - 0) = 32820) ∧
    (getPosition (setCalibration (begun 240 320) ⟨0, 0⟩ ⟨1, 0⟩ ⟨0, 1⟩ ⟨1, 1⟩).2 ⟨0, 0⟩
      adc_ref_t.MODE_DFR 0xff touchPins (readingBus 164 0)).map Prod.fst
      ≠ some ⟨20 + ((240 : Int) - 40) * (164 - 0) / (1 - 0),
              20 + ((320 : Int) - 40) * (0 - 0) / (1 - 0)⟩ := by
  decide

/-- C13 amended: with touch present, rotation 0 and an unswapped calibration with
nonzero denominators, the components of the result are the signed 16-bit stores of
`margin + dx*(raw.x - P1.x)/(P2.x - P1.x)` and `margin + dy*(raw.y - P1.y)/(P3.y - P1.y)`,
computed with truncating division in 32-bit signed arithmetic, and the bus is left as
`getRaw` leaves it.  With `dx = width - 40`, `dy = height - 40`, a screen of at most
32767 x 32767 and `P1` in the 16-bit range no 32-bit operation wraps; the result is
then exactly these two values whenever they lie in -32768..32767. -/
theorem getPosition_linear_map (d : Driver) (pos raw : TS_Point) (mode : adc_ref_t) (N : Nat)
    (pins : Nat → Bool) (bus : Bus)
    (htouch : pins d._irq_pin = false) (hrot : d._rotation = rotation_t.ROT_0)
    (hsw : d._is_swapped = false)
    (hden : d._cal_point_2.x ≠ d._cal_point_1.x ∧ d._cal_point_3.y ≠ d._cal_point_1.y)
    (hraw : (getRaw d ⟨0, 0⟩ mode N bus).map Prod.fst = some raw) :
    (getPosition d pos mode N pins bus).map Prod.fst =
      some ⟨toInt16 (toInt32 ((CAL_MARGIN : Int) +
              toInt32 ((toInt32 (d._cal_dx * (raw.x - d._cal_point_1.x))).tdiv
                (d._cal_point_2.x - d._cal_point_1.x)))),
            toInt16 (toInt32 ((CAL_MARGIN : Int) +
              toInt32 ((toInt32 (d._cal_dy * (raw.y - d._cal_point_1.y))).tdiv
                (d._cal_point_3.y - d._cal_point_1.y))))⟩ ∧
    (getPosition d pos mode N pins bus).map Prod.snd
      = (getRaw d ⟨0, 0⟩ mode N bus).map Prod.snd ∧
    (N ≤ 255 → d._width ≤ 32767 → d._height ≤ 32767 →
      d._cal_dx = (d._width : Int) - 40 → d._cal_dy = (d._height : Int) - 40 →
      InInt16 d._cal_point_1 →
      (getPosition d pos mode N pins bus).map Prod.fst =
        some ⟨toInt16 (20 + (((d._width : Int) - 40) * (raw.x - d._cal_point_1.x)).tdiv
                (d._cal_point_2.x - d._cal_point_1.x)),
              toInt16 (20 + (((d._height : Int) - 40) * (raw.y - d._cal_point_1.y)).tdiv
                (d._cal_point_3.y - d._cal_point_1.y))⟩ ∧
      (InInt16
          ⟨20 + (((d._width : Int) - 40) * (raw.x - d._cal_point_1.x)).tdiv
              (d._cal_point_2.x - d._cal_point_1.x),
           20 + (((d._height : Int) - 40) * (raw.y - d._cal_point_1.y)).tdiv
              (d._cal_point_3.y - d._cal_point_1.y)⟩ →
        (getPosition d pos mode N pins bus).map Prod.fst =
          some ⟨20 + (((d._width : Int) - 40) * (raw.x - d._cal_point_1.x)).tdiv
                  (d._cal_point_2.x - d._cal_point_1.x),
                20 + (((d._height : Int) - 40) * (raw.y - d._cal_point_1.y)).tdiv
                  (d._cal_point_3.y - d._cal_point_1.y)⟩)) := by
  obtain ⟨⟨raw1, bus1⟩, hg, hr⟩ := Option.map_eq_some'.mp hraw
  simp only at hr
  subst hr
  have hmap : getPosition_map d raw1 =
      some ⟨toInt16 (toInt32 ((CAL_MARGIN : Int) +
              toInt32 ((toInt32 (d._cal_dx * (raw1.x - d._cal_point_1.x))).tdiv
                (d._cal_point_2.x - d._cal_point_1.x)))),
            toInt16 (toInt32 ((CAL_MARGIN : Int) +
              toInt32 ((toInt32 (d._cal_dy * (raw1.y - d._cal_point_1.y))).tdiv
                (d._cal_point_3.y - d._cal_point_1.y))))⟩ := by
    unfold getPosition_map
    rw [if_neg (by rw [hsw]; exact Bool.false_ne_true),
      if_neg (not_or.mpr ⟨sub_ne_zero.mpr hden.1, sub_ne_zero.mpr hden.2⟩)]
  have hrotate : ∀ p, getPosition_rotate d p = p := by
    intro p
    unfold getPosition_rotate
    rw [hrot]
  have hpos := getPosition_of_touch d pos mode N pins bus raw1 bus1 htouch hg
  rw [hmap] at hpos
  simp only [Option.map_some', hrotate] at hpos
  have hfst := congrArg (Option.map Prod.fst) hpos
  simp only [Option.map_some'] at hfst
  refine ⟨hfst, by rw [hpos, hg]; rfl, ?_⟩
  intro hN hw hh hdx hdy hP1
  have hin := getRaw_inRaw d ⟨0, 0⟩ mode N bus raw1 bus1 hN hg
  unfold InRaw at hin
  unfold InInt16 at hP1
  have ex := linear_term_exact d._cal_dx (raw1.x - d._cal_point_1.x)
    (d._cal_point_2.x - d._cal_point_1.x)
    (abs_le.mpr ⟨by omega, by omega⟩) (abs_le.mpr ⟨by omega, by omega⟩)
  have ey := linear_term_exact d._cal_dy (raw1.y - d._cal_point_1.y)
    (d._cal_point_3.y - d._cal_point_1.y)
    (abs_le.mpr ⟨by omega, by omega⟩) (abs_le.mpr ⟨by omega, by omega⟩)
  rw [ex, ey, hdx, hdy] at hfst
  refine ⟨hfst, fun hfit => ?_⟩
  unfold InInt16 at hfit
  simp only at hfit
  rw [hfst, toInt16_of_range _ hfit.1 (by omega), toInt16_of_range _ hfit.2.2.1 (by omega)]

/-- Witness of C13 amended (scenario E2): calibration `(200,200), (3895,200),
(200,3895), (3895,3895)` on 240x320 and raw reading `(2047,2047)` give `(119,159)`,
within 1 of `(120,160)`. -/
theorem getPosition_linear_map_witness :
    (getPosition
      (setCalibration (begun 240 320) ⟨200, 200⟩ ⟨3895, 200⟩ ⟨200, 3895⟩ ⟨3895, 3895⟩).2
      ⟨0, 0⟩ adc_ref_t.MODE_DFR 0xff touchPins (readingBus 2047 2047)).map Prod.fst
      = some ⟨119, 159⟩ ∧
    |(119 : Int) - 120| ≤ 1 ∧ |(159 : Int) - 160| ≤ 1 :=
  ⟨((getPosition_linear_map
      (setCalibration (begun 240 320) ⟨200, 200⟩ ⟨3895, 200⟩ ⟨200, 3895⟩ ⟨3895, 3895⟩).2
      ⟨0, 0⟩ ⟨2047, 2047⟩ adc_ref_t.MODE_DFR 0xff touchPins (readingBus 2047 2047)
      (by decide) (by decide) (by decide) ⟨by decide, by decide⟩ (by decide)).2.2
      (by decide) (by decide) (by decide) (by decide) (by decide) (by decide)).2 (by decide),
   by decide, by decide⟩

/-- C12, as the code stands: under the default calibration installed by
`begin(240, 320)` a raw reading of the second anchor `(3753,255)` is mapped to
`(-1523,20)`, and no reading at all is mapped to the second screen anchor `(220,20)`:
the stored second point is `(-101,255)`, which no conversion can return. -/
theorem getPosition_default_calibration_misses_anchor :
    (begun 240 320)._cal_point_2 = ⟨-101, 255⟩ ∧
    (getPosition (begun 240 320) ⟨0, 0⟩ adc_ref_t.MODE_DFR 0xff touchPins
      (readingBus 3753 255)).map Prod.fst = some ⟨-1523, 20⟩ ∧
    ¬ ∃ (mode : adc_ref_t) (N : Nat) (bus : Bus), N ≤ 255 ∧
      (getPosition (begun 240 320) ⟨0, 0⟩ mode N touchPins bus).map Prod.fst
        = some ⟨220, 20⟩ := by
  refine ⟨by decide, by decide, ?_⟩
  rintro ⟨mode, N, bus, hN, h⟩
  cases hg : getRaw (begun 240 320) ⟨0, 0⟩ mode N bus with
  | none =>
    have hnone : getPosition (begun 240 320) ⟨0, 0⟩ mode N touchPins bus = none := by
      unfold getPosition
      rw [if_neg (by decide)]
      simp only [hg]
    rw [hnone] at h
    exact Option.noConfusion h
  | some r =>
    obtain ⟨raw, bus1⟩ := r
    have hin := getRaw_inRaw _ _ mode N bus raw bus1 hN hg
    unfold InRaw at hin
    have h0 := getPosition_rot0 (begun 240 320) ⟨0, 0⟩ raw mode N touchPins bus
      (by decide) (by decide) (by rw [hg]; rfl)
    rw [h0] at h
    have hD : begun 240 320 =
        { driver0 with _cal_point_1 := ⟨341, 255⟩, _cal_point_2 := ⟨-101, 255⟩,
                       _cal_point_3 := ⟨341, 65⟩, _cal_point_4 := ⟨-101, 65⟩ } := by decide
    rw [hD] at h
    unfold getPosition_map at h
    simp only [driver0, Bool.false_eq_true, if_false] at h
    rw [if_neg (by decide)] at h
    have hx := congrArg TS_Point.x (Option.some.inj h)
    simp only at hx
    rw [linear_term_exact 200 (raw.x - 341) (-101 - 341) (by decide)
      (abs_le.mpr ⟨by omega, by omega⟩)] at hx
    have e : ((-101 : Int) - 341) = -442 := by decide
    rw [e, Int.tdiv_neg] at hx
    rcases le_or_lt 0 (raw.x - 341) with hpos | hneg
    · rw [Int.tdiv_eq_ediv (by omega) (by decide)] at hx
      rw [toInt16_of_range _ (by omega) (by omega)] at hx
      omega
    · have e2 : (200 : Int) * (raw.x - 341) = -(200 * (341 - raw.x)) := by ring
      rw [e2, Int.neg_tdiv, Int.tdiv_eq_ediv (by omega) (by decide)] at hx
      rw [toInt16_of_range _ (by omega) (by omega)] at hx
      omega

/-- C12 amended: for every screen size with `40 < width, height ≤ 32767` (and
`dx = width - 40`, `dy = height - 40` as `begin` stores them) and every four raw points
in 0..4095 that form an exact axis-aligned rectangle with distinct edges (unswapped:
`p1=(a,c), p2=(b,c), p3=(a,e), p4=(b,e)`; swapped: `p1=(a,c), p2=(a,e), p3=(b,c),
p4=(b,e)`; `a ≠ b`, `c ≠ e`), `setCalibration(p1..p4)` succeeds and `getPosition` at
rotation 0 with touch present and raw reading `p_i` yields exactly the i-th anchor
written by `getCalibrationPoints`: `(20,20)`, `(width-20,20)`, `(20,height-20)`,
`(width-20,height-20)`. -/
theorem getPosition_calibration_anchors (d : Driver) (a b c e : Int) (pos raw : TS_Point)
    (mode : adc_ref_t) (N : Nat) (pins : Nat → Bool) (bus : Bus)
    (hw : 40 < d._width ∧ d._width ≤ 32767) (hh : 40 < d._height ∧ d._height ≤ 32767)
    (hdx : d._cal_dx = (d._width : Int) - 40) (hdy : d._cal_dy = (d._height : Int) - 40)
    (hrot : d._rotation = rotation_t.ROT_0) (htouch : pins d._irq_pin = false)
    (ha : 0 ≤ a ∧ a ≤ 4095) (hb : 0 ≤ b ∧ b ≤ 4095) (hc : 0 ≤ c ∧ c ≤ 4095)
    (he : 0 ≤ e ∧ e ≤ 4095) (hab : a ≠ b) (hce : c ≠ e) :
    ((setCalibration d ⟨a, c⟩ ⟨b, c⟩ ⟨a, e⟩ ⟨b, e⟩).1 = true ∧
      (setCalibration d ⟨a, c⟩ ⟨b, c⟩ ⟨a, e⟩ ⟨b, e⟩).2._is_swapped = false ∧
      getCalibrationPoints (setCalibration d ⟨a, c⟩ ⟨b, c⟩ ⟨a, e⟩ ⟨b, e⟩).2 =
        (⟨20, 20⟩, ⟨(d._width : Int) - 20, 20⟩, ⟨20, (d._height : Int) - 20⟩,
         ⟨(d._width : Int) - 20, (d._height : Int) - 20⟩) ∧
      ((getRaw (setCalibration d ⟨a, c⟩ ⟨b, c⟩ ⟨a, e⟩ ⟨b, e⟩).2 ⟨0, 0⟩ mode N bus).map Prod.fst = some raw →
        (raw = ⟨a, c⟩ →
          (getPosition (setCalibration d ⟨a, c⟩ ⟨b, c⟩ ⟨a, e⟩ ⟨b, e⟩).2 pos mode N pins bus).map Prod.fst
            = some ⟨20, 20⟩) ∧
        (raw = ⟨b, c⟩ →
          (getPosition (setCalibration d ⟨a, c⟩ ⟨b, c⟩ ⟨a, e⟩ ⟨b, e⟩).2 pos mode N pins bus).map Prod.fst
            = some ⟨(d._width : Int) - 20, 20⟩) ∧
        (raw = ⟨a, e⟩ →
          (getPosition (setCalibration d ⟨a, c⟩ ⟨b, c⟩ ⟨a, e⟩ ⟨b, e⟩).2 pos mode N pins bus).map Prod.fst
            = some ⟨20, (d._height : Int) - 20⟩) ∧
        (raw = ⟨b, e⟩ →
          (getPosition (setCalibration d ⟨a, c⟩ ⟨b, c⟩ ⟨a, e⟩ ⟨b, e⟩).2 pos mode N pins bus).map Prod.fst
            = some ⟨(d._width : Int) - 20, (d._height : Int) - 20⟩))) ∧
    ((setCalibration d ⟨a, c⟩ ⟨a, e⟩ ⟨b, c⟩ ⟨b, e⟩).1 = true ∧
      (setCalibration d ⟨a, c⟩ ⟨a, e⟩ ⟨b, c⟩ ⟨b, e⟩).2._is_swapped = true ∧
      getCalibrationPoints (setCalibration d ⟨a, c⟩ ⟨a, e⟩ ⟨b, c⟩ ⟨b, e⟩).2 =
        (⟨20, 20⟩, ⟨(d._width : Int) - 20, 20⟩, ⟨20, (d._height : Int) - 20⟩,
         ⟨(d._width : Int) - 20, (d._height : Int) - 20⟩) ∧
      ((getRaw (setCalibration d ⟨a, c⟩ ⟨a, e⟩ ⟨b, c⟩ ⟨b, e⟩).2 ⟨0, 0⟩ mode N bus).map Prod.fst = some raw →
        (raw = ⟨a, c⟩ →
          (getPosition (setCalibration d ⟨a, c⟩ ⟨a, e⟩ ⟨b, c⟩ ⟨b, e⟩).2 pos mode N pins bus).map Prod.fst
            = some ⟨20, 20⟩) ∧
        (raw = ⟨a, e⟩ →
          (getPosition (setCalibration d ⟨a, c⟩ ⟨a, e⟩ ⟨b, c⟩ ⟨b, e⟩).2 pos mode N pins bus).map Prod.fst
            = some ⟨(d._width : Int) - 20, 20⟩) ∧
        (raw = ⟨b, c⟩ →
          (getPosition (setCalibration d ⟨a, c⟩ ⟨a, e⟩ ⟨b, c⟩ ⟨b, e⟩).2 pos mode N pins bus).map Prod.fst
            = some ⟨20, (d._height : Int) - 20⟩) ∧
        (raw = ⟨b, e⟩ →
          (getPosition (setCalibration d ⟨a, c⟩ ⟨a, e⟩ ⟨b, c⟩ ⟨b, e⟩).2 pos mode N pins bus).map Prod.fst
            = some ⟨(d._width : Int) - 20, (d._height : Int) - 20⟩))) := by
  have hm : ((CAL_MARGIN : Nat) : Int) = 20 := rfl
  have e20 : toInt16 20 = 20 := by decide
  have ew : toInt16 ((d._width : Int) - 20) = (d._width : Int) - 20 :=
    toInt16_of_range _ (by omega) (by omega)
  have eh : toInt16 ((d._height : Int) - 20) = (d._height : Int) - 20 :=
    toInt16_of_range _ (by omega) (by omega)
  have ex : (20 : Int) + d._cal_dx = (d._width : Int) - 20 := by omega
  have ey : (20 : Int) + d._cal_dy = (d._height : Int) - 20 := by omega
  constructor
  · rw [setCalibration_rect_unswapped d a b c e ha hb hc he]
    obtain ⟨m1, m2, m3, m4⟩ := getPosition_map_rect_unswapped d a b c e (by omega) (by omega)
      ha hb hc he (Ne.symm hab) (Ne.symm hce) _ rfl
    rw [ex] at m2 m4
    rw [ey] at m3 m4
    dsimp only
    simp only [eq_self_iff_true, true_and]
    refine ⟨?_, fun hraw => ?_⟩
    · simp only [getCalibrationPoints, hm, e20, ew, eh]
    · have h0 := getPosition_rot0
        { d with _is_swapped := false
                 _cal_point_1 := ⟨a, c⟩, _cal_point_2 := ⟨b, c⟩
                 _cal_point_3 := ⟨a, e⟩, _cal_point_4 := ⟨b, e⟩ }
        pos raw mode N pins bus htouch hrot hraw
      refine ⟨fun hr => ?_, fun hr => ?_, fun hr => ?_, fun hr => ?_⟩ <;> subst hr
      · rw [h0, m1]
      · rw [h0, m2]
      · rw [h0, m3]
      · rw [h0, m4]
  · rw [setCalibration_rect_swapped d a b c e ha hb hc he (Ne.symm hab) (Ne.symm hce)]
    obtain ⟨m1, m2, m3, m4⟩ := getPosition_map_rect_swapped d a b c e (by omega) (by omega)
      ha hb hc he (Ne.symm hab) (Ne.symm hce) _ rfl
    rw [ex] at m2 m4
    rw [ey] at m3 m4
    dsimp only
    simp only [eq_self_iff_true, true_and]
    refine ⟨?_, fun hraw => ?_⟩
    · simp only [getCalibrationPoints, hm, e20, ew, eh]
    · have h0 := getPosition_rot0
        { d with _is_swapped := true
                 _cal_point_1 := ⟨a, c⟩, _cal_point_2 := ⟨a, e⟩
                 _cal_point_3 := ⟨b, c⟩, _cal_point_4 := ⟨b, e⟩ }
        pos raw mode N pins bus htouch hrot hraw
      refine ⟨fun hr => ?_, fun hr => ?_, fun hr => ?_, fun hr => ?_⟩ <;> subst hr
      · rw [h0, m1]
      · rw [h0, m2]
      · rw [h0, m3]
      · rw [h0, m4]

/-- Witness of C12 amended: on 240x320 the calibration `(341,255), (3753,255),
(341,3839), (3753,3839)` maps its four points to `(20,20)`, `(220,20)`, `(20,300)`,
`(220,300)`. -/
theorem getPosition_calibration_anchors_witness :
    (getPosition (setCalibration (begun 240 320) ⟨341, 255⟩ ⟨3753, 255⟩ ⟨341, 3839⟩ ⟨3753, 3839⟩).2
      ⟨0, 0⟩ adc_ref_t.MODE_DFR 0xff touchPins (readingBus 341 255)).map Prod.fst
      = some ⟨20, 20⟩ ∧
    (getPosition (setCalibration (begun 240 320) ⟨341, 255⟩ ⟨3753, 255⟩ ⟨341, 3839⟩ ⟨3753, 3839⟩).2
      ⟨0, 0⟩ adc_ref_t.MODE_DFR 0xff touchPins (readingBus 3753 255)).map Prod.fst
      = some ⟨220, 20⟩ ∧
    (getPosition (setCalibration (begun 240 320) ⟨341, 255⟩ ⟨3753, 255⟩ ⟨341, 3839⟩ ⟨3753, 3839⟩).2
      ⟨0, 0⟩ adc_ref_t.MODE_DFR 0xff touchPins (readingBus 341 3839)).map Prod.fst
      = some ⟨20, 300⟩ ∧
    (getPosition (setCalibration (begun 240 320) ⟨341, 255⟩ ⟨3753, 255⟩ ⟨341, 3839⟩ ⟨3753, 3839⟩).2
      ⟨0, 0⟩ adc_ref_t.MODE_DFR 0xff touchPins (readingBus 3753 3839)).map Prod.fst
      = some ⟨220, 300⟩ :=
  ⟨((getPosition_calibration_anchors (begun 240 320) 341 3753 255 3839 ⟨0, 0⟩ ⟨341, 255⟩
      adc_ref_t.MODE_DFR 0xff touchPins (readingBus 341 255)
      ⟨by decide, by decide⟩ ⟨by decide, by decide⟩ (by decide) (by decide) (by decide)
      (by decide) ⟨by decide, by decide⟩ ⟨by decide, by decide⟩ ⟨by decide, by decide⟩
      ⟨by decide, by decide⟩ (by decide) (by decide)).1.2.2.2 (by decide)).1 rfl,
   ((getPosition_calibration_anchors (begun 240 320) 341 3753 255 3839 ⟨0, 0⟩ ⟨3753, 255⟩
      adc_ref_t.MODE_DFR 0xff touchPins (readingBus 3753 255)
      ⟨by decide, by decide⟩ ⟨by decide, by decide⟩ (by decide) (by decide) (by decide)
      (by decide) ⟨by decide, by decide⟩ ⟨by decide, by decide⟩ ⟨by decide, by decide⟩
      ⟨by decide, by decide⟩ (by decide) (by decide)).1.2.2.2 (by decide)).2.1 rfl,
   ((getPosition_calibration_anchors (begun 240 320) 341 3753 255 3839 ⟨0, 0⟩ ⟨341, 3839⟩
      adc_ref_t.MODE_DFR 0xff touchPins (readingBus 341 3839)
      ⟨by decide, by decide⟩ ⟨by decide, by decide⟩ (by decide) (by decide) (by decide)
      (by decide) ⟨by decide, by decide⟩ ⟨by decide, by decide⟩ ⟨by decide, by decide⟩
      ⟨by decide, by decide⟩ (by decide) (by decide)).1.2.2.2 (by decide)).2.2.1 rfl,
   ((getPosition_calibration_anchors (begun 240 320) 341 3753 255 3839 ⟨0, 0⟩ ⟨3753, 3839⟩
      adc_ref_t.MODE_DFR 0xff touchPins (readingBus 3753 3839)
      ⟨by decide, by decide⟩ ⟨by decide, by decide⟩ (by decide) (by decide) (by decide)
      (by decide) ⟨by decide, by decide⟩ ⟨by decide, by decide⟩ ⟨by decide, by decide⟩
      ⟨by decide, by decide⟩ (by decide) (by decide)).1.2.2.2 (by decide)).2.2.2 rfl⟩

/-- C14, as the code stands: a reading that rotation 0 maps to a negative `x` can
make `width - x` exceed 32767, and the component stored at rotation 90 is then its
16-bit wrap.  On a 32767x320 screen `(-307,20)` becomes `(20,-32462)`, not
`(20,33074)`; on a 240x320 screen `(-32580,20)` becomes `(20,-32716)`, not
`(20,32820)`. -/
theorem rotation_result_wraps :
    ((getPosition
        (setRotation (setCalibration (begun 32767 320) ⟨100, 100⟩ ⟨200, 100⟩ ⟨100, 200⟩
          ⟨200, 200⟩).2 rotation_t.ROT_0)
        ⟨0, 0⟩ adc_ref_t.MODE_DFR 0xff touchPins (readingBus 99 100)).map Prod.fst
        = some ⟨-307, 20⟩ ∧
     (getPosition
        (setRotation (setCalibration (begun 32767 320) ⟨100, 100⟩ ⟨200, 100⟩ ⟨100, 200⟩
          ⟨200, 200⟩).2 rotation_t.ROT_90)
        ⟨0, 0⟩ adc_ref_t.MODE_DFR 0xff touchPins (readingBus 99 100)).map Prod.fst
        = some ⟨20, -32462⟩ ∧
     (32767 : Int) - (-307) = 33074) ∧
    ((getPosition
        (setRotation (setCalibration (begun 240 320) ⟨163, 0⟩ ⟨164, 0⟩ ⟨163, 1⟩
          ⟨164, 1⟩).2 rotation_t.ROT_0)
        ⟨0, 0⟩ adc_ref_t.MODE_DFR 0xff touchPins (readingBus 0 0)).map Prod.fst
        = some ⟨-32580, 20⟩ ∧
     (getPosition
        (setRotation (setCalibration (begun 240 320) ⟨163, 0⟩ ⟨164, 0⟩ ⟨163, 1⟩
          ⟨164, 1⟩).2 rotation_t.ROT_90)
        ⟨0, 0⟩ adc_ref_t.MODE_DFR 0xff touchPins (readingBus 0 0)).map Prod.fst
        = some ⟨20, -32716⟩ ∧
     (240 : Int) - (-32580) = 32820) := by
  decide

/-- C14 amended: for every screen size and every reading that `getPosition` maps, with
touch present, to `(x, y)` at rotation 0, the same reading yields at rotation 90 the
point `(y, width - x)`, at rotation 180 `(width - x, height - y)` and at rotation 270
`(height - y, x)`, where `width - x` and `height - y` are stored as signed 16-bit
values; they are exactly `width - x` and `height - y` whenever these do not exceed
32767, in particular whenever `x ≥ 0`, `y ≥ 0` and width, height ≤ 32767. -/
theorem getPosition_rotation (d : Driver) (pos : TS_Point) (mode : adc_ref_t) (N : Nat)
    (pins : Nat → Bool) (bus : Bus) (x y : Int)
    (htouch : pins d._irq_pin = false)
    (h0 : (getPosition (setRotation d rotation_t.ROT_0) pos mode N pins bus).map Prod.fst
      = some ⟨x, y⟩) :
    ((getPosition (setRotation d rotation_t.ROT_90) pos mode N pins bus).map Prod.fst
        = some ⟨y, toInt16 ((d._width : Int) - x)⟩ ∧
      (getPosition (setRotation d rotation_t.ROT_180) pos mode N pins bus).map Prod.fst
        = some ⟨toInt16 ((d._width : Int) - x), toInt16 ((d._height : Int) - y)⟩ ∧
      (getPosition (setRotation d rotation_t.ROT_270) pos mode N pins bus).map Prod.fst
        = some ⟨toInt16 ((d._height : Int) - y), x⟩) ∧
    ((d._width : Int) - x ≤ 32767 → (d._height : Int) - y ≤ 32767 →
      (getPosition (setRotation d rotation_t.ROT_90) pos mode N pins bus).map Prod.fst
        = some ⟨y, (d._width : Int) - x⟩ ∧
      (getPosition (setRotation d rotation_t.ROT_180) pos mode N pins bus).map Prod.fst
        = some ⟨(d._width : Int) - x, (d._height : Int) - y⟩ ∧
      (getPosition (setRotation d rotation_t.ROT_270) pos mode N pins bus).map Prod.fst
        = some ⟨(d._height : Int) - y, x⟩) ∧
    (0 ≤ x → 0 ≤ y → d._width ≤ 32767 → d._height ≤ 32767 →
      (d._width : Int) - x ≤ 32767 ∧ (d._height : Int) - y ≤ 32767) := by
  cases hg : getRaw d ⟨0, 0⟩ mode N bus with
  | none =>
    have hnone : getPosition (setRotation d rotation_t.ROT_0) pos mode N pins bus = none := by
      unfold getPosition isTouching
      have hg1 : getRaw (setRotation d rotation_t.ROT_0) ⟨0, 0⟩ mode N bus = none := hg
      have ht1 : pins (setRotation d rotation_t.ROT_0)._irq_pin = false := htouch
      simp only [ht1, hg1, beq_self_eq_true, Bool.not_true, Bool.false_eq_true, if_false]
    rw [hnone] at h0
    exact Option.noConfusion h0
  | some r =>
    obtain ⟨raw, bus1⟩ := r
    have hpos : ∀ rot, getPosition (setRotation d rot) pos mode N pins bus =
        (getPosition_map d raw).map
          (fun p => (getPosition_rotate (setRotation d rot) p, bus1)) :=
      fun rot => getPosition_of_touch (setRotation d rot) pos mode N pins bus raw bus1 htouch hg
    rw [hpos] at h0
    cases hm : getPosition_map d raw with
    | none =>
      rw [hm] at h0
      exact Option.noConfusion h0
    | some p =>
      rw [hm] at h0
      have hp : p = ⟨x, y⟩ := Option.some.inj h0
      subst hp
      have hx : x ≤ 32767 := by
        unfold getPosition_map at hm
        split at hm <;> split at hm
        · exact Option.noConfusion hm
        · have := congrArg TS_Point.x (Option.some.inj hm)
          simp only at this
          rw [← this]
          exact (toInt16_range _).2
        · exact Option.noConfusion hm
        · have := congrArg TS_Point.x (Option.some.inj hm)
          simp only at this
          rw [← this]
          exact (toInt16_range _).2
      have hy : y ≤ 32767 := by
        unfold getPosition_map at hm
        split at hm <;> split at hm
        · exact Option.noConfusion hm
        · have := congrArg TS_Point.y (Option.some.inj hm)
          simp only at this
          rw [← this]
          exact (toInt16_range _).2
        · exact Option.noConfusion hm
        · have := congrArg TS_Point.y (Option.some.inj hm)
          simp only at this
          rw [← this]
          exact (toInt16_range _).2
      have r90 : (getPosition (setRotation d rotation_t.ROT_90) pos mode N pins bus).map
          Prod.fst = some ⟨y, toInt16 ((d._width : Int) - x)⟩ := by
        rw [hpos, hm]; rfl
      have r180 : (getPosition (setRotation d rotation_t.ROT_180) pos mode N pins bus).map
          Prod.fst = some ⟨toInt16 ((d._width : Int) - x), toInt16 ((d._height : Int) - y)⟩ := by
        rw [hpos, hm]; rfl
      have r270 : (getPosition (setRotation d rotation_t.ROT_270) pos mode N pins bus).map
          Prod.fst = some ⟨toInt16 ((d._height : Int) - y), x⟩ := by
        rw [hpos, hm]; rfl
      refine ⟨⟨r90, r180, r270⟩, fun hwx hhy => ?_, fun h1 h2 h3 h4 => by omega⟩
      have ew : toInt16 ((d._width : Int) - x) = (d._width : Int) - x :=
        toInt16_of_range _ (by omega) (by omega)
      have eh : toInt16 ((d._height : Int) - y) = (d._height : Int) - y :=
        toInt16_of_range _ (by omega) (by omega)
      rw [ew] at r90 r180
      rw [eh] at r180 r270
      exact ⟨r90, r180, r270⟩

/-- Witness of C14 amended: with the calibration of scenario E2 on 240x320, the
reading mapped to `(60,80)` at rotation 0 yields `(80,180)`, `(180,240)` and `(240,60)`
at rotations 90, 180 and 270; the reading of scenario E3, mapped to `(119,159)` at
rotation 0, yields `(159,121)` at rotation 90, within 1 of `(160,120)`. -/
theorem getPosition_rotation_witness :
    ((getPosition
      (setRotation (setCalibration (begun 240 320) ⟨200, 200⟩ ⟨3895, 200⟩ ⟨200, 3895⟩ ⟨3895, 3895⟩).2
        rotation_t.ROT_90)
      ⟨0, 0⟩ adc_ref_t.MODE_DFR 0xff touchPins (readingBus 939 992)).map Prod.fst
      = some ⟨80, 180⟩ ∧
     (getPosition
      (setRotation (setCalibration (begun 240 320) ⟨200, 200⟩ ⟨3895, 200⟩ ⟨200, 3895⟩ ⟨3895, 3895⟩).2
        rotation_t.ROT_180)
      ⟨0, 0⟩ adc_ref_t.MODE_DFR 0xff touchPins (readingBus 939 992)).map Prod.fst
      = some ⟨180, 240⟩ ∧
     (getPosition
      (setRotation (setCalibration (begun 240 320) ⟨200, 200⟩ ⟨3895, 200⟩ ⟨200, 3895⟩ ⟨3895, 3895⟩).2
        rotation_t.ROT_270)
      ⟨0, 0⟩ adc_ref_t.MODE_DFR 0xff touchPins (readingBus 939 992)).map Prod.fst
      = some ⟨240, 60⟩) ∧
    (getPosition
      (setRotation (setCalibration (begun 240 320) ⟨200, 200⟩ ⟨3895, 200⟩ ⟨200, 3895⟩ ⟨3895, 3895⟩).2
        rotation_t.ROT_90)
      ⟨0, 0⟩ adc_ref_t.MODE_DFR 0xff touchPins (readingBus 2047 2047)).map Prod.fst
      = some ⟨159, 121⟩ ∧
    |(159 : Int) - 160| ≤ 1 ∧ |(121 : Int) - 120| ≤ 1 :=
  ⟨(getPosition_rotation
      (setCalibration (begun 240 320) ⟨200, 200⟩ ⟨3895, 200⟩ ⟨200, 3895⟩ ⟨3895, 3895⟩).2
      ⟨0, 0⟩ adc_ref_t.MODE_DFR 0xff touchPins (readingBus 939 992) 60 80 (by decide)
      (by decide)).2.1 (by decide) (by decide),
   ((getPosition_rotation
      (setCalibration (begun 240 320) ⟨200, 200⟩ ⟨3895, 200⟩ ⟨200, 3895⟩ ⟨3895, 3895⟩).2
      ⟨0, 0⟩ adc_ref_t.MODE_DFR 0xff touchPins (readingBus 2047 2047) 119 159 (by decide)
      (by decide)).2.1 (by decide) (by decide)).1,
   by decide, by decide⟩

end XPT2046
